import Mathlib

/-!
# Verification of the market-making engines in `bot/modes/mm`

Shallow embedding of the decision logic, ladder planner, budget allocator,
order sequencer and control loop of `mode_binance_follow.py`
(`FollowMMEngine`) and `mode_binance_dual.py` (`DualSideMMEngine`).

Python floats are modelled as exact rationals (`ℚ`); `round(x, 8)` is
modelled as rounding to the nearest multiple of `10⁻⁸`.  Calls into the
browser adapter (order submission, open-order reads, order-book reads,
balance reads, price fetches) are modelled by explicit environment inputs
holding the result each call would return during the pass, with
`Option`/`Except` for calls that can raise: `none` models the call raising
an exception (for reads) or every retry attempt failing (for submissions).
A repeated read within one pass returns the same environment value.
-/

namespace MMBot

/-- Order side, `Side = Literal["bid", "ask"]` in both engine modules. -/
inductive Side where
  | bid
  | ask
deriving DecidableEq, Repr

/-- `_step_ratio` (both engines): `step_percent / 100.0`. -/
def step_frac (step_percent : ℚ) : ℚ := step_percent / 100

/-- `_normalize_price` / `_normalize_qty` (both engines): `round(x, 8)`,
rounding to the nearest multiple of `10⁻⁸`.  Ties are rounded up here;
Python rounds ties to even, but no statement below evaluates the rounding
at an exact tie, so the tie convention is immaterial. -/
def round8 (x : ℚ) : ℚ := ((⌊x * 100000000 + 1 / 2⌋ : ℤ) : ℚ) / 100000000

/-- An order-book row as parsed by `read_orderbook` (`OrderbookLevel`
dataclass in both engine modules): a price and a quantity. -/
structure OrderbookLevel where
  price : ℚ
  qty : ℚ
deriving DecidableEq, Repr

/-- An open-order row as returned by `vic_orders.read_open_orders_side`
(`OrderRow` dataclass in `vic_orders.py`).  The dataclass has exactly the
fields `side`, `price`, `order_id`, `row_el` — it has **no** `qty` field
(`row_el`, a live DOM handle, is irrelevant to the logic and omitted). -/
structure OrderRow where
  side : Side
  price : ℚ
  orderId : String
deriving DecidableEq, Repr

/-- A successfully submitted limit order (one successful
`place_limit_order(driver, side, price, qty)` call). -/
structure PlacedOrder where
  side : Side
  price : ℚ
  qty : ℚ
deriving DecidableEq, Repr

/-- `_weights_pyramid` (`mode_binance_follow.py`; the `PYRAMID` branch of
`_get_weights` in `mode_binance_dual.py`): `raw = [1..n]`, `s = sum(raw)`,
weights `r / s`. -/
def weights_pyramid (n : ℕ) : List ℚ :=
  let raw : List ℕ := (List.range n).map (fun i => i + 1)
  let s : ℚ := (raw.map (fun r => (r : ℚ))).sum
  raw.map (fun r => (r : ℚ) / s)

/-- `_weights_equal` (`mode_binance_follow.py`): `1.0 / n` for each of the
`n` levels. -/
def weights_equal (n : ℕ) : List ℚ :=
  (List.range n).map (fun _ => 1 / (n : ℚ))

/-- `_get_weights` (both engines): `"EQUAL"` → equal weights, anything
else → pyramid weights. -/
def get_weights (n : ℕ) (mode : String) : List ℚ :=
  if mode = "EQUAL" then weights_equal n else weights_pyramid n

/-- `FollowMMEngine._calculate_orderbook_levels`: for `k = 1..levels`,
`price_k = anchor * (1 - step)^k` (bid) or `anchor * (1 + step)^k` (ask),
each normalised by `_normalize_price` (8-decimal rounding).  `step` is
`self._step = _step_ratio(cfg.step_percent)`. -/
def calculate_orderbook_levels (side : Side) (anchor step : ℚ) (levels : ℕ) :
    List ℚ :=
  match side with
  | .bid => (List.range levels).map (fun k => round8 (anchor * (1 - step) ^ (k + 1)))
  | .ask => (List.range levels).map (fun k => round8 (anchor * (1 + step) ^ (k + 1)))

/-- `DualSideMMEngine._calculate_ladder_prices`: identical formula to
`FollowMMEngine._calculate_orderbook_levels` (the side is passed as a
string in the source; empty list when no anchor is set is handled by the
caller here, since every call site below has an anchor). -/
def calculate_ladder_prices (side : Side) (anchor step : ℚ) (levels : ℕ) :
    List ℚ :=
  match side with
  | .bid => (List.range levels).map (fun k => round8 (anchor * (1 - step) ^ (k + 1)))
  | .ask => (List.range levels).map (fun k => round8 (anchor * (1 + step) ^ (k + 1)))

/-! ## Number parsing and order-book reading -/

/-- Python `str.strip()`: drop leading and trailing whitespace
(character-list level). -/
def strip_chars (l : List Char) : List Char :=
  ((l.dropWhile Char.isWhitespace).reverse.dropWhile Char.isWhitespace).reverse

/-- The cleaning step of `_parse_number` (both engine modules): strip the
text, keep only characters in `[0-9\-,.]`, then remove commas. -/
def clean_number_chars (s : String) : List Char :=
  ((strip_chars s.toList).filter
    (fun c => c.isDigit || c = '-' || c = ',' || c = '.')).filter
    (fun c => c ≠ ',')

/-- Value of a digit string, most significant first. -/
def digits_value (l : List Char) : ℕ :=
  l.foldl (fun n c => 10 * n + (c.toNat - 48)) 0

/-- Python `float(t)` on a cleaned numeric text (alphabet `[0-9\-.]`):
an optional leading sign, then digits with at most one decimal point and
at least one digit.  `none` models `float` raising `ValueError` (e.g. on
`"-"`, `"."`, `"1-2"`, `"1.2.3"`). -/
def python_float_of_chars (l : List Char) : Option ℚ :=
  let neg : Bool := match l with
    | '-' :: _ => true
    | _ => false
  let l1 := match l with
    | '-' :: rest => rest
    | _ => l
  let ip := l1.takeWhile Char.isDigit
  let rest := l1.drop ip.length
  let val : Option ℚ :=
    match rest with
    | [] => if ip.isEmpty then none else some ((digits_value ip : ℚ))
    | '.' :: fp =>
      if fp.all Char.isDigit && !(ip.isEmpty && fp.isEmpty) then
        some ((digits_value ip : ℚ) + (digits_value fp : ℚ) / 10 ^ fp.length)
      else none
    | _ => none
  val.map (fun v => if neg then -v else v)

/-- `_parse_number` (both engine modules, also `vic_orders.py`): clean the
text; if nothing is left raise `ValueError` (`none`); otherwise Python
`float` (`none` when that raises). -/
def parse_number (text : String) : Option ℚ :=
  let t := clean_number_chars text
  if t.isEmpty then none else python_float_of_chars t

/-- The DOM texts of one `a.bidding-table-rows` row of the order-book
container: the `div.col-price` and `div.col-cost` texts. -/
structure RawRow where
  priceText : String
  qtyText : String
deriving DecidableEq, Repr

/-- `read_orderbook` (identical in both engine modules).  The input models
the DOM: `none` when locating the order-box container fails or times out
(the outer `except` returns `[]`), `some rows` otherwise.  A row whose
price or quantity text fails to parse is skipped (`except: continue`). -/
def read_orderbook (dom : Option (List RawRow)) : List OrderbookLevel :=
  match dom with
  | none => []
  | some rows =>
    rows.filterMap (fun r =>
      match parse_number r.priceText, parse_number r.qtyText with
      | some p, some q => some ⟨p, q⟩
      | _, _ => none)

/-! ## FollowMMEngine: configuration, environment, order sequencing -/

/-- `EngineConfig` (`mode_binance_follow.py`).  Field names ending in
`_ratio` in the source are rendered `_frac` here; timing fields the claims
do not touch (`cancel_row_timeout_sec`, `max_cancel_ops_per_cycle`,
`toast_wait_sec`) are omitted. -/
structure EngineConfig where
  levels : ℕ
  rebalance_interval_sec : ℚ
  refill_interval_sec : ℚ
  step_percent : ℚ
  buy_budget_frac : ℚ
  sell_qty_frac : ℚ
  anchor_budget_frac : ℚ
  min_order_usdt : ℚ
  fixed_amount : Option ℚ
  distribution_mode : String

/-- The module-level feature flags of `config.py` that the engines read:
`FLAG_ADJUSTMENT_ENABLE` (False in `config.py`) and
`FLAG_REMOVE_EXCESS_ORDERS_ENABLE` (True in `config.py`). -/
structure EngineFlags where
  adjustment : Bool
  remove_excess : Bool

/-- The mutable fields of a `FollowMMEngine` instance (`AnchorState`). -/
structure EngineState where
  anchor_price : Option ℚ
  prev_anchor_price : Option ℚ
  price_adjustment : Option ℚ
  last_rebalance_ts : ℚ
  last_refill_ts : ℚ
  rebalance_lock : Bool
deriving DecidableEq, Repr

/-- The engine state right after `FollowMMEngine.__init__`. -/
def initial_state : EngineState :=
  { anchor_price := none, prev_anchor_price := none, price_adjustment := none
    last_rebalance_ts := 0, last_refill_ts := 0, rebalance_lock := false }

/-- External world for one `FollowMMEngine` control-loop iteration: the
result each adapter/feed call would return.  `attempts i = true` means the
`i`-th submission attempt of the corresponding `_retry_order` call
succeeds; `ladder_attempts p` is the outcome of the single
`place_limit_order` call for the ladder level at price `p`.  A `none` read
models the call raising (for `get_binance_price`: raising after its own
internal retries). -/
structure FollowEnv where
  now : ℚ
  binance_price : Option ℚ
  open_orders : Side → Option (List OrderRow)
  orderbook_dom : Side → Option (List RawRow)
  bait_attempts : ℕ → Bool
  sweep_attempts : ℕ → Bool
  anchor_attempts : ℕ → Bool
  ladder_attempts : ℚ → Bool
  buy_usdt : Option ℚ
  sell_qty : Option ℚ
  adjustment_sample : ℚ

/-- `FollowMMEngine._retry_order`: up to `max_retries` submission attempts
with a pause between; `True` as soon as one attempt succeeds, `False`
after all fail. -/
def retry_order (attempts : ℕ → Bool) (max_retries : ℕ) : Bool :=
  (List.range max_retries).any attempts

/-- `FollowMMEngine._get_blocking_orders`: read the order book on `side`
and keep the rows priced strictly better than `target_price`
(below it when baiting for a bid, above it when baiting for an ask). -/
def get_blocking_orders (dom : Option (List RawRow)) (target_price : ℚ)
    (is_bid : Bool) : List OrderbookLevel :=
  let orders := read_orderbook dom
  if is_bid then orders.filter (fun o => decide (o.price < target_price))
  else orders.filter (fun o => decide (o.price > target_price))

/-- `FollowMMEngine._check_balance_available`: in bid mode compare the
needed notional `qty * price` against the fixed amount (if configured) or
the live USDT balance scaled by the buy budget ratio; in ask mode compare
`qty` against the live coin balance scaled by the sell quantity ratio.
Any exception (modelled by a `none` balance read) is caught and yields
`False`. -/
def check_balance_available (cfg : EngineConfig) (env : FollowEnv)
    (qty price : ℚ) (is_bid : Bool) : Bool :=
  if is_bid then
    match cfg.fixed_amount with
    | some f => !decide (qty * price > f)
    | none =>
      match env.buy_usdt with
      | none => false
      | some b => !decide (qty * price > b * cfg.buy_budget_frac)
  else
    match env.sell_qty with
    | none => false
    | some s => !decide (qty > s * cfg.sell_qty_frac)

/-- `FollowMMEngine._place_anchor_order`: size the anchor order from the
side budget times the anchor budget ratio; place it (with retries) when
the quantity is positive.  A balance-read exception is caught ("Anchor
failed") and nothing is placed; a retry failure is logged and skipped. -/
def place_anchor_order (cfg : EngineConfig) (env : FollowEnv) (side : Side)
    (price : ℚ) (is_bid : Bool) : List PlacedOrder :=
  let qty : Option ℚ :=
    if is_bid then
      match cfg.fixed_amount with
      | some f => some (round8 (f * cfg.anchor_budget_frac / price))
      | none =>
        match env.buy_usdt with
        | none => none
        | some b => some (round8 (b * cfg.buy_budget_frac * cfg.anchor_budget_frac / price))
    else
      match env.sell_qty with
      | none => none
      | some s => some (round8 (s * cfg.sell_qty_frac * cfg.anchor_budget_frac))
  match qty with
  | none => []
  | some q =>
    if 0 < q then
      if retry_order env.anchor_attempts 3 then [⟨side, price, q⟩] else []
    else []

/-- `FollowMMEngine._set_current_price_and_anchor`, the bait → blocking
scan → balance check → sweep → anchor sequence for the engine's single
side around anchor price `anchor` (`self._anchor_price`, already set by
`full_rebalance`).  Returns the successfully placed orders and, for the
bait-failure `RuntimeError`, the uncaught exception. -/
def set_current_price_and_anchor (cfg : EngineConfig) (side : Side)
    (anchor : ℚ) (env : FollowEnv) : List PlacedOrder × Option String :=
  let target_price := round8 anchor
  let bait_qty := round8 (cfg.min_order_usdt / target_price)
  let is_bid : Bool := decide (side = Side.bid)
  let opp : Side := if is_bid then .ask else .bid
  let my : Side := if is_bid then .bid else .ask
  if retry_order env.bait_attempts 3 = false then
    ([], some "BAIT order failed")
  else
    let bait : PlacedOrder := ⟨opp, target_price, bait_qty⟩
    let blocking := get_blocking_orders (env.orderbook_dom opp) target_price is_bid
    let total_sweep_qty := bait_qty + (blocking.map OrderbookLevel.qty).sum
    if check_balance_available cfg env total_sweep_qty target_price is_bid = false then
      ([bait], none)
    else if retry_order env.sweep_attempts 3 = false then
      ([bait], none)
    else
      ([bait, ⟨my, target_price, total_sweep_qty⟩]
        ++ place_anchor_order cfg env my target_price is_bid, none)

/-! ## FollowMMEngine: ladder placement and refill -/

/-- `FollowMMEngine._place_orderbook_orders`: allocate a budget across
`prices` by the configured weight distribution and place one order per
level, skipping non-positive quantities and failed submissions.  In bid
mode the budget is `available_budget` if given, else the fixed amount (or
the live balance scaled by the buy ratio) times `1 - anchor ratio`; a
balance-read exception is caught and nothing is placed.  In ask mode with
`available_budget` given (refill) the source re-reads the open ask rows
and evaluates `r.qty` on `OrderRow`, which has no `qty` attribute: unless
that row list is empty, the resulting `AttributeError` is caught by the
same `except` and nothing is placed. -/
def place_orderbook_orders (cfg : EngineConfig) (side : Side)
    (env : FollowEnv) (prices : List ℚ) (available_budget : Option ℚ) :
    List PlacedOrder :=
  if prices.isEmpty then []
  else
    match side with
    | .bid =>
      let usdt : Option ℚ :=
        match available_budget with
        | some b => some b
        | none =>
          match cfg.fixed_amount with
          | some f => some (f * (1 - cfg.anchor_budget_frac))
          | none =>
            (env.buy_usdt).map
              (fun u => u * cfg.buy_budget_frac * (1 - cfg.anchor_budget_frac))
      match usdt with
      | none => []
      | some u =>
        let ws := get_weights prices.length cfg.distribution_mode
        (prices.zip ws).filterMap (fun pw =>
          let qty := round8 (u * pw.2 / pw.1)
          if 0 < qty then
            if env.ladder_attempts pw.1 then some ⟨Side.bid, pw.1, qty⟩ else none
          else none)
    | .ask =>
      let coin : Option ℚ :=
        match available_budget with
        | some _ =>
          match env.open_orders .ask with
          | none => none
          | some rows =>
            match env.sell_qty with
            | none => none
            | some s =>
              match rows with
              | [] =>
                some (max 0 (s * cfg.sell_qty_frac * (1 - cfg.anchor_budget_frac) - 0))
              | _ :: _ => none
        | none =>
          (env.sell_qty).map
            (fun s => s * cfg.sell_qty_frac * (1 - cfg.anchor_budget_frac))
      match coin with
      | none => []
      | some c =>
        let ws := get_weights prices.length cfg.distribution_mode
        (prices.zip ws).filterMap (fun pw =>
          let qty := round8 (c * pw.2)
          if 0 < qty then
            if env.ladder_attempts pw.1 then some ⟨Side.ask, pw.1, qty⟩ else none
          else none)

/-- The lowest (bid) or highest (ask) resting price,
`min(r.price for r in rows)` / `max(...)`; `none` on an empty book (where
Python `min`/`max` would raise, a case the callers rule out first). -/
def outer_price (side : Side) (rows : List OrderRow) : Option ℚ :=
  match side with
  | .bid => (rows.map OrderRow.price).min?
  | .ask => (rows.map OrderRow.price).max?

/-- The new price levels computed by `FollowMMEngine._refill_ladder_to_target`
(and identically by `DualSideMMEngine._refill_ladder_side`) for a
non-empty book: extend outward from the outermost resting price by `need`
further steps, `outer * (1 - step)^i` (bid) / `outer * (1 + step)^i` (ask)
for `i = 1..need`, price-normalised. -/
def refill_new_prices (side : Side) (step : ℚ) (rows : List OrderRow)
    (need : ℕ) : Option (List ℚ) :=
  match outer_price side rows with
  | none => none
  | some outer =>
    match side with
    | .bid => some ((List.range need).map (fun i => round8 (outer * (1 - step) ^ (i + 1))))
    | .ask => some ((List.range need).map (fun i => round8 (outer * (1 + step) ^ (i + 1))))

/-- `FollowMMEngine._calculate_remaining_budget`: for the bid side in
fixed-amount mode, the ladder budget is `fixed * (1 - anchor ratio)` minus
the notional of the existing rows, floored at 0; percentage mode and the
ask side return `None` (budget taken from the live balance instead).  The
subtraction loop evaluates `row.price * row.qty` on `OrderRow`, which has
no `qty` attribute: with at least one existing row the first iteration
raises `AttributeError`, which no caller catches (`.error` models the
uncaught exception). -/
def calculate_remaining_budget (cfg : EngineConfig) (side : Side)
    (existing_rows : List OrderRow) : Except String (Option ℚ) :=
  match side with
  | .bid =>
    match cfg.fixed_amount with
    | none => .ok none
    | some f =>
      let total_budget := f * (1 - cfg.anchor_budget_frac)
      match existing_rows with
      | [] => .ok (some (max 0 (total_budget - 0)))
      | _ :: _ => .error "AttributeError: OrderRow object has no attribute qty"
  | .ask => .ok none

/-- `FollowMMEngine._refill_ladder_to_target`: read the engine-side open
orders (an uncaught read exception propagates); trim and stop when the
book is over-full and trimming is enabled; place the full ladder from the
anchor when the book is empty; otherwise place `levels - len(rows)` new
levels extended outward from the outermost resting price, budgeted by
`_calculate_remaining_budget` (whose `AttributeError` propagates). -/
def refill_ladder_to_target (cfg : EngineConfig) (side : Side) (step : ℚ)
    (flags : EngineFlags) (anchor : ℚ) (env : FollowEnv) :
    List PlacedOrder × Option String :=
  match env.open_orders side with
  | none => ([], some "read_open_orders_side failed")
  | some rows =>
    if cfg.levels < rows.length && flags.remove_excess then
      ([], none)
    else if rows.length = 0 then
      (place_orderbook_orders cfg side env
        (calculate_orderbook_levels side anchor step cfg.levels) none, none)
    else
      let need := cfg.levels - rows.length
      if need = 0 then ([], none)
      else
        match refill_new_prices side step rows need with
        | none => ([], none)
        | some new_prices =>
          match calculate_remaining_budget cfg side rows with
          | .error e => ([], some e)
          | .ok remaining =>
            (place_orderbook_orders cfg side env new_prices remaining, none)

/-! ## FollowMMEngine: rebalance, sync and the control loop -/

/-- `FollowMMEngine.full_rebalance`: set the re-entrancy lock; fetch the
reference price (an exception propagates out of the `try`); draw the
price adjustment; optionally trim excess orders (its open-order read can
raise); run the bait/sweep/anchor sequence (its `RuntimeError`
propagates); fill the ladder; record the rebalance timestamp and the new
previous anchor.  The `finally` clears the lock on every path. -/
def full_rebalance (cfg : EngineConfig) (side : Side) (step : ℚ)
    (flags : EngineFlags) (st : EngineState) (env : FollowEnv) :
    EngineState × List PlacedOrder × Option String :=
  match env.binance_price with
  | none => ({st with rebalance_lock := false}, [],
             some "Binance price fetch failed after retries")
  | some p =>
    let adj := if flags.adjustment then env.adjustment_sample / 100 else 0
    let st1 := {st with anchor_price := some p, price_adjustment := some adj}
    if flags.remove_excess && (env.open_orders side).isNone then
      ({st1 with rebalance_lock := false}, [], some "read_open_orders_side failed")
    else
      let sc := set_current_price_and_anchor cfg side p env
      match sc.2 with
      | some e => ({st1 with rebalance_lock := false}, sc.1, some e)
      | none =>
        let rf := refill_ladder_to_target cfg side step flags p env
        match rf.2 with
        | some e => ({st1 with rebalance_lock := false}, sc.1 ++ rf.1, some e)
        | none =>
          ({st1 with rebalance_lock := false, last_rebalance_ts := env.now,
                     prev_anchor_price := some p}, sc.1 ++ rf.1, none)

/-- `FollowMMEngine._refill_orderbook_only`: adopt the new reference price
as both anchor and previous anchor, draw an adjustment if none is set,
re-place the full ladder from the new anchor (total budget), and reset the
rebalance timestamp. -/
def refill_orderbook_only (cfg : EngineConfig) (side : Side) (step : ℚ)
    (st : EngineState) (env : FollowEnv) (binance_price : ℚ) :
    EngineState × List PlacedOrder :=
  let st1 := {st with anchor_price := some binance_price,
                      prev_anchor_price := some binance_price}
  let st2 :=
    match st1.price_adjustment with
    | none => {st1 with price_adjustment := some (env.adjustment_sample / 100)}
    | some _ => st1
  let prices := calculate_orderbook_levels side binance_price step cfg.levels
  let orders := place_orderbook_orders cfg side env prices none
  ({st2 with last_rebalance_ts := env.now}, orders)

/-- Which branch a `_sync_with_binance` call took. -/
inductive SyncAction where
  | skipped
  | fullRebalance
  | refillOnly
  | idle
deriving DecidableEq, Repr

/-- `FollowMMEngine._sync_with_binance`: fetch a fresh price (failure is
caught → return); with no previous anchor always fully rebalance; else
read the engine-side open orders (failure caught → return) and decide:
bid — price strictly up → full rebalance, else empty book or price
strictly down → refill only, else nothing; ask — mirror image. -/
def sync_with_binance (cfg : EngineConfig) (side : Side) (step : ℚ)
    (flags : EngineFlags) (st : EngineState) (env : FollowEnv) :
    EngineState × List PlacedOrder × Option String × SyncAction :=
  match env.binance_price with
  | none => (st, [], none, .skipped)
  | some new_price =>
    match st.prev_anchor_price with
    | none =>
      let r := full_rebalance cfg side step flags st env
      (r.1, r.2.1, r.2.2, .fullRebalance)
    | some prev =>
      let price_change := new_price - prev
      match env.open_orders side with
      | none => (st, [], none, .skipped)
      | some rows =>
        match side with
        | .bid =>
          if 0 < price_change then
            let r := full_rebalance cfg side step flags st env
            (r.1, r.2.1, r.2.2, .fullRebalance)
          else if rows.length = 0 ∨ price_change < 0 then
            let r := refill_orderbook_only cfg side step st env new_price
            (r.1, r.2, none, .refillOnly)
          else (st, [], none, .idle)
        | .ask =>
          if price_change < 0 then
            let r := full_rebalance cfg side step flags st env
            (r.1, r.2.1, r.2.2, .fullRebalance)
          else if rows.length = 0 ∨ 0 < price_change then
            let r := refill_orderbook_only cfg side step st env new_price
            (r.1, r.2, none, .refillOnly)
          else (st, [], none, .idle)

/-- `FollowMMEngine._refill_missing_orders`: with no anchor or adjustment
set yet, fall back to a full rebalance; otherwise top up the ladder and
record the refill timestamp (skipped when the refill raised). -/
def refill_missing_orders (cfg : EngineConfig) (side : Side) (step : ℚ)
    (flags : EngineFlags) (st : EngineState) (env : FollowEnv) :
    EngineState × List PlacedOrder × Option String :=
  match st.anchor_price, st.price_adjustment with
  | some a, some _ =>
    let rf := refill_ladder_to_target cfg side step flags a env
    match rf.2 with
    | some e => (st, rf.1, some e)
    | none => ({st with last_refill_ts := env.now}, rf.1, none)
  | _, _ => full_rebalance cfg side step flags st env

/-- What one control-loop iteration did. -/
structure IterTrace where
  sync_action : Option SyncAction
  refill_ran : Bool
  lock_at_refill_check : Option Bool
  submitted : List PlacedOrder
deriving DecidableEq, Repr

/-- One iteration of the `while True` loop of `FollowMMEngine.run_mm`:
check the rebalance timer and sync; then, unless the `rebalancing` lock is
set, check the refill timer and top up.  `sync_action` is `none` when the
rebalance timer had not matured, `lock_at_refill_check` is `none` when a
propagating exception ended the iteration before the refill check. -/
def run_mm_iteration (cfg : EngineConfig) (side : Side) (step : ℚ)
    (flags : EngineFlags) (st : EngineState) (env : FollowEnv) :
    EngineState × IterTrace × Option String :=
  let now := env.now
  let sync : EngineState × List PlacedOrder × Option String × Option SyncAction :=
    if cfg.rebalance_interval_sec ≤ now - st.last_rebalance_ts then
      let r := sync_with_binance cfg side step flags st env
      (r.1, r.2.1, r.2.2.1, some r.2.2.2)
    else (st, [], none, none)
  match sync.2.2.1 with
  | some e =>
    (sync.1, {sync_action := sync.2.2.2, refill_ran := false,
              lock_at_refill_check := none, submitted := sync.2.1}, some e)
  | none =>
    let st1 := sync.1
    let lock := st1.rebalance_lock
    if lock = false ∧ cfg.refill_interval_sec ≤ now - st1.last_refill_ts then
      let r := refill_missing_orders cfg side step flags st1 env
      (r.1, {sync_action := sync.2.2.2, refill_ran := true,
             lock_at_refill_check := some lock, submitted := sync.2.1 ++ r.2.1},
       r.2.2)
    else
      (st1, {sync_action := sync.2.2.2, refill_ran := false,
             lock_at_refill_check := some lock, submitted := sync.2.1}, none)

/-- The `while True` loop of `FollowMMEngine.run_mm`, run for `fuel`
iterations with a stream of per-iteration environments: an uncaught
exception leaves the loop (and `run_mm`) with that error. -/
def run_mm_loop (cfg : EngineConfig) (side : Side) (step : ℚ)
    (flags : EngineFlags) :
    ℕ → EngineState → (ℕ → FollowEnv) → Except String EngineState
  | 0, st, _ => .ok st
  | fuel + 1, st, envs =>
    let r := run_mm_iteration cfg side step flags st (envs 0)
    match r.2.2 with
    | some e => .error e
    | none => run_mm_loop cfg side step flags fuel r.1 (fun i => envs (i + 1))

/-! ## Startup cleanup (common to both engines) -/

/-- The attempt loop shared by `FollowMMEngine._ensure_clean_start` and
`DualSideMMEngine._ensure_clean_start`: `attempt_results i` is the
`(success, total)` pair returned by the `i`-th `cancel_all_open_orders`
call.  An attempt with `total == 0` or `success == total` returns
normally; after `max_attempts` failed attempts a `RuntimeError` is
raised. -/
def ensure_clean_start_go (attempt_results : ℕ → ℕ × ℕ) :
    ℕ → ℕ → Except String Unit
  | 0, _ => .error "Order cleanup failed after 3 attempts"
  | fuel + 1, i =>
    let r := attempt_results i
    if r.2 = 0 then .ok ()
    else if r.1 = r.2 then .ok ()
    else ensure_clean_start_go attempt_results fuel (i + 1)

/-- `_ensure_clean_start` with its `max_attempts = 3`. -/
def ensure_clean_start (attempt_results : ℕ → ℕ × ℕ) : Except String Unit :=
  ensure_clean_start_go attempt_results 3 0

/-- The pre-loop part of `FollowMMEngine.run_mm`: startup cleanup (a
`RuntimeError` propagates), the post-cleanup verification reads (an
exception propagates; any surviving order logs and returns without
trading), then the initial `full_rebalance`.  Returns the orders placed
and the error that ended the run, if any. -/
def run_mm_startup (cfg : EngineConfig) (side : Side) (step : ℚ)
    (flags : EngineFlags) (attempt_results : ℕ → ℕ × ℕ) (env : FollowEnv) :
    List PlacedOrder × Option String :=
  match ensure_clean_start attempt_results with
  | .error e => ([], some e)
  | .ok _ =>
    match env.open_orders .bid, env.open_orders .ask with
    | some bid_rows, some ask_rows =>
      if bid_rows.length ≠ 0 ∨ ask_rows.length ≠ 0 then ([], none)
      else
        let r := full_rebalance cfg side step flags initial_state env
        (r.2.1, r.2.2)
    | _, _ => ([], some "read_open_orders_side failed")

/-! ## DualSideMMEngine -/

/-- `DualEngineConfig` (`mode_binance_dual.py`); `_ratio` fields rendered
`_frac`, timing fields the claims do not touch omitted. -/
structure DualEngineConfig where
  levels : ℕ
  rebalance_interval_sec : ℚ
  refill_interval_sec : ℚ
  step_percent : ℚ
  anchor_budget_frac : ℚ
  min_order_usdt : ℚ
  distribution_mode : String
  bid_fixed_amount : ℚ
  ask_fixed_amount : ℚ

/-- The mutable fields of a `DualSideMMEngine` instance. -/
structure DualState where
  anchor_price : Option ℚ
  prev_anchor_price : Option ℚ
  price_adjustment : Option ℚ
  last_rebalance_ts : ℚ
  last_refill_ts : ℚ
  rebalance_lock : Bool
deriving DecidableEq, Repr

/-- External world for one `DualSideMMEngine` pass (same conventions as
`FollowEnv`).  Per-side submission attempt outcomes are indexed by the
sequencer step; `ladder_attempts side p` is the outcome of the single
ladder submission at price `p` on `side`. -/
structure DualEnv where
  now : ℚ
  binance_price : Option ℚ
  open_orders : Side → Option (List OrderRow)
  orderbook_dom : Side → Option (List RawRow)
  bait_bid_attempts : ℕ → Bool
  bait_ask_attempts : ℕ → Bool
  sweep_bid_attempts : ℕ → Bool
  sweep_ask_attempts : ℕ → Bool
  anchor_bid_attempts : ℕ → Bool
  anchor_ask_attempts : ℕ → Bool
  ladder_attempts : Side → ℚ → Bool
  adjustment_sample : ℚ

/-- `DualSideMMEngine._retry_order`: same retry shape as the follow
engine's (`place_limit_order`'s falsy return and an exception are both
treated as a failed attempt). -/
def retry_order_dual (attempts : ℕ → Bool) (max_retries : ℕ) : Bool :=
  (List.range max_retries).any attempts

/-- `DualSideMMEngine._get_blocking_orders`: identical to the follow
engine's blocking scan. -/
def get_blocking_orders_dual (dom : Option (List RawRow)) (target_price : ℚ)
    (is_bid : Bool) : List OrderbookLevel :=
  let orders := read_orderbook dom
  if is_bid then orders.filter (fun o => decide (o.price < target_price))
  else orders.filter (fun o => decide (o.price > target_price))

/-- `DualSideMMEngine._place_bait_orders`: one bait on the ask side for
the bid quote, then one bait on the bid side for the ask quote, both of
quantity `min_order_usdt / target_price`; either retry cap exhausting
raises `RuntimeError`. -/
def place_bait_orders (cfg : DualEngineConfig) (target_price : ℚ)
    (env : DualEnv) : List PlacedOrder × Option String :=
  let bait_qty := round8 (cfg.min_order_usdt / target_price)
  if retry_order_dual env.bait_bid_attempts 3 = false then
    ([], some "BAIT-BID order failed")
  else
    let o1 : PlacedOrder := ⟨.ask, target_price, bait_qty⟩
    if retry_order_dual env.bait_ask_attempts 3 = false then
      ([o1], some "BAIT-ASK order failed")
    else ([o1, ⟨.bid, target_price, bait_qty⟩], none)

/-- `DualSideMMEngine._sweep_blocking_orders`: for each side, scan the
opposite book for blocking orders and, only when some exist, submit one
sweep order sized to the sum of the blocking quantities (no bait quantity
added, no balance check); a retry failure is logged and skipped. -/
def sweep_blocking_orders (target_price : ℚ) (env : DualEnv) :
    List PlacedOrder :=
  let ask_blocking := get_blocking_orders_dual (env.orderbook_dom .ask) target_price true
  let part1 : List PlacedOrder :=
    if ask_blocking.isEmpty then []
    else
      let total_sweep_qty := (ask_blocking.map OrderbookLevel.qty).sum
      if retry_order_dual env.sweep_bid_attempts 3 then
        [⟨.bid, target_price, total_sweep_qty⟩]
      else []
  let bid_blocking := get_blocking_orders_dual (env.orderbook_dom .bid) target_price false
  let part2 : List PlacedOrder :=
    if bid_blocking.isEmpty then []
    else
      let total_sweep_qty := (bid_blocking.map OrderbookLevel.qty).sum
      if retry_order_dual env.sweep_ask_attempts 3 then
        [⟨.ask, target_price, total_sweep_qty⟩]
      else []
  part1 ++ part2

/-- `DualSideMMEngine._place_anchor_orders`: the bid anchor is sized from
`bid_fixed_amount * anchor ratio` in notional, the ask anchor from
`ask_fixed_amount / target_price * anchor ratio` in coins; each placed
when positive, retry failures logged and skipped. -/
def place_anchor_orders (cfg : DualEngineConfig) (target_price : ℚ)
    (env : DualEnv) : List PlacedOrder :=
  let o1 : List PlacedOrder :=
    let usdt := cfg.bid_fixed_amount * cfg.anchor_budget_frac
    let qty := round8 (usdt / target_price)
    if 0 < qty then
      if retry_order_dual env.anchor_bid_attempts 3 then
        [⟨.bid, target_price, qty⟩]
      else []
    else []
  let o2 : List PlacedOrder :=
    let coin_value := cfg.ask_fixed_amount
    let total_coin_qty := coin_value / target_price
    let qty := round8 (total_coin_qty * cfg.anchor_budget_frac)
    if 0 < qty then
      if retry_order_dual env.anchor_ask_attempts 3 then
        [⟨.ask, target_price, qty⟩]
      else []
    else []
  o1 ++ o2

/-- `DualSideMMEngine._place_ladder_orders_side`: allocate the fixed side
budget net of the anchor fraction across `prices` by the configured
weights; bid levels are notional-funded (`qty = budget / price`), ask
levels coin-funded from `ask_fixed_amount / anchor`; non-positive
quantities and failed submissions are skipped. -/
def place_ladder_orders_side (cfg : DualEngineConfig) (anchor : ℚ)
    (side : Side) (prices : List ℚ) (attempts : ℚ → Bool) :
    List PlacedOrder :=
  if prices.isEmpty then []
  else
    let ws := get_weights prices.length cfg.distribution_mode
    match side with
    | .bid =>
      let usdt := cfg.bid_fixed_amount * (1 - cfg.anchor_budget_frac)
      (prices.zip ws).filterMap (fun pw =>
        let budget := usdt * pw.2
        let qty := round8 (budget / pw.1)
        if 0 < qty then
          if attempts pw.1 then some ⟨Side.bid, pw.1, qty⟩ else none
        else none)
    | .ask =>
      let coin_value := cfg.ask_fixed_amount
      let total_coin_qty := coin_value / anchor
      let coin := total_coin_qty * (1 - cfg.anchor_budget_frac)
      (prices.zip ws).filterMap (fun pw =>
        let qty := round8 (coin * pw.2)
        if 0 < qty then
          if attempts pw.1 then some ⟨Side.ask, pw.1, qty⟩ else none
        else none)

/-- `DualSideMMEngine._place_ladder_orders_both_sides`: full bid ladder
then full ask ladder from the current anchor. -/
def place_ladder_orders_both_sides (cfg : DualEngineConfig) (anchor : ℚ)
    (env : DualEnv) : List PlacedOrder :=
  place_ladder_orders_side cfg anchor .bid
      (calculate_ladder_prices .bid anchor (step_frac cfg.step_percent) cfg.levels)
      (env.ladder_attempts .bid)
    ++ place_ladder_orders_side cfg anchor .ask
      (calculate_ladder_prices .ask anchor (step_frac cfg.step_percent) cfg.levels)
      (env.ladder_attempts .ask)

/-- `DualSideMMEngine._setup_both_sides`: bait both sides (a
`RuntimeError` propagates), sweep blocking orders, place both anchors,
then both ladders. -/
def setup_both_sides (cfg : DualEngineConfig) (anchor : ℚ) (env : DualEnv) :
    List PlacedOrder × Option String :=
  let target_price := round8 anchor
  let b := place_bait_orders cfg target_price env
  match b.2 with
  | some e => (b.1, some e)
  | none =>
    (b.1 ++ sweep_blocking_orders target_price env
       ++ place_anchor_orders cfg target_price env
       ++ place_ladder_orders_both_sides cfg anchor env, none)

/-- `DualSideMMEngine.full_rebalance_both_sides`: the dual analogue of
`full_rebalance`: lock, price fetch (exception propagates), adjustment,
optional trim (`_remove_excess_orders_both_sides` reads both sides; a
read exception propagates; it only cancels), `_setup_both_sides`, then
timestamps and previous anchor; the `finally` clears the lock. -/
def full_rebalance_both_sides (cfg : DualEngineConfig) (flags : EngineFlags)
    (st : DualState) (env : DualEnv) :
    DualState × List PlacedOrder × Option String :=
  match env.binance_price with
  | none => ({st with rebalance_lock := false}, [],
             some "Binance price fetch failed after retries")
  | some p =>
    let adj := if flags.adjustment then env.adjustment_sample / 100 else 0
    let st1 := {st with anchor_price := some p, price_adjustment := some adj}
    if flags.remove_excess &&
        ((env.open_orders .bid).isNone || (env.open_orders .ask).isNone) then
      ({st1 with rebalance_lock := false}, [], some "read_open_orders_side failed")
    else
      let su := setup_both_sides cfg p env
      match su.2 with
      | some e => ({st1 with rebalance_lock := false}, su.1, some e)
      | none =>
        ({st1 with rebalance_lock := false, last_rebalance_ts := env.now,
                   prev_anchor_price := some p}, su.1, none)

/-- `DualSideMMEngine._refill_orderbook_only_both_sides`: adopt the new
price as anchor and previous anchor, re-place the full bid and ask
ladders from it, and reset the rebalance timestamp. -/
def refill_orderbook_only_both_sides (cfg : DualEngineConfig)
    (st : DualState) (env : DualEnv) (binance_price : ℚ) :
    DualState × List PlacedOrder :=
  let st1 := {st with anchor_price := some binance_price,
                      prev_anchor_price := some binance_price}
  let bid_prices := calculate_ladder_prices .bid binance_price
    (step_frac cfg.step_percent) cfg.levels
  let o1 := place_ladder_orders_side cfg binance_price .bid bid_prices
    (env.ladder_attempts .bid)
  let ask_prices := calculate_ladder_prices .ask binance_price
    (step_frac cfg.step_percent) cfg.levels
  let o2 := place_ladder_orders_side cfg binance_price .ask ask_prices
    (env.ladder_attempts .ask)
  ({st1 with last_rebalance_ts := env.now}, o1 ++ o2)

/-- `DualSideMMEngine._sync_with_binance_both_sides`: fetch a fresh price
(failure caught → return); no previous anchor → full rebalance; else read
both open-order lists (failure caught → return); full rebalance of both
sides when either side's book is empty or `|%change| > 0.3`, else a
refill-only pass for both sides. -/
def sync_with_binance_both_sides (cfg : DualEngineConfig)
    (flags : EngineFlags) (st : DualState) (env : DualEnv) :
    DualState × List PlacedOrder × Option String × SyncAction :=
  match env.binance_price with
  | none => (st, [], none, .skipped)
  | some new_price =>
    match st.prev_anchor_price with
    | none =>
      let r := full_rebalance_both_sides cfg flags st env
      (r.1, r.2.1, r.2.2, .fullRebalance)
    | some prev =>
      let price_change := new_price - prev
      let price_change_percent := price_change / prev * 100
      match env.open_orders .bid, env.open_orders .ask with
      | some bid_orders, some ask_orders =>
        if bid_orders.length = 0 ∨ ask_orders.length = 0 then
          let r := full_rebalance_both_sides cfg flags st env
          (r.1, r.2.1, r.2.2, .fullRebalance)
        else if 3 / 10 < |price_change_percent| then
          let r := full_rebalance_both_sides cfg flags st env
          (r.1, r.2.1, r.2.2, .fullRebalance)
        else
          let r := refill_orderbook_only_both_sides cfg st env new_price
          (r.1, r.2, none, .refillOnly)
      | _, _ => (st, [], none, .skipped)

/-- `DualSideMMEngine._refill_ladder_side`: for a side with
`need = levels - len(existing)` missing levels, extend outward from the
outermost resting price (or take the first `need` anchor-ladder prices on
an empty book) and place them with the side's full ladder budget via
`_place_ladder_orders_side`. -/
def refill_ladder_side (cfg : DualEngineConfig) (anchor : ℚ) (side : Side)
    (existing_orders : List OrderRow) (env : DualEnv) : List PlacedOrder :=
  let need := cfg.levels - existing_orders.length
  if need = 0 then []
  else
    let new_prices :=
      match refill_new_prices side (step_frac cfg.step_percent) existing_orders need with
      | some ps => ps
      | none =>
        (calculate_ladder_prices side anchor (step_frac cfg.step_percent) cfg.levels).take need
    place_ladder_orders_side cfg anchor side new_prices (env.ladder_attempts side)

/-! ## Claimed / amended decision tables (stated from the claims' words,
to be compared with the source-derived decision logic) -/

/-- The amended single-side decision table: full rebalance iff the price
moved strictly in the staleness direction (up for bid, down for ask),
regardless of book emptiness; else refill-only iff the book is empty or
the price moved strictly the other way; else nothing. -/
def amended_single_side_decision (side : Side) (prev new_price : ℚ)
    (rows : List OrderRow) : SyncAction :=
  match side with
  | .bid =>
    if prev < new_price then .fullRebalance
    else if rows = [] ∨ new_price < prev then .refillOnly
    else .idle
  | .ask =>
    if new_price < prev then .fullRebalance
    else if rows = [] ∨ prev < new_price then .refillOnly
    else .idle

/-- The dual-side decision table as claimed: full rebalance iff either
side's book is empty or the absolute percentage change versus the previous
anchor exceeds 0.3%; otherwise refill-only. -/
def claimed_dual_decision (prev new_price : ℚ)
    (bid_rows ask_rows : List OrderRow) : SyncAction :=
  if bid_rows = [] ∨ ask_rows = [] ∨ 3 / 10 < |(new_price - prev) / prev * 100| then
    .fullRebalance
  else .refillOnly

/-! ## Concrete fixtures for the closed evaluations below -/

/-- A small single-side configuration: 1 level, 1% step, 10s timers,
half-of-balance budgets, half the budget on the anchor order, 10 USDT
minimum order, percentage mode, equal weights. -/
def cfg1 : EngineConfig :=
  { levels := 1, rebalance_interval_sec := 10, refill_interval_sec := 10,
    step_percent := 1, buy_budget_frac := 1 / 2, sell_qty_frac := 1 / 2,
    anchor_budget_frac := 1 / 2, min_order_usdt := 10, fixed_amount := none,
    distribution_mode := "EQUAL" }

/-- `cfg1` switched to fixed-amount mode (6 USDT) with 2 levels. -/
def cfg_fixed : EngineConfig :=
  { cfg1 with levels := 2, fixed_amount := some 6 }

/-- The flag values set in `config.py`: `FLAG_ADJUSTMENT_ENABLE = False`,
`FLAG_REMOVE_EXCESS_ORDERS_ENABLE = True`. -/
def flags1 : EngineFlags := { adjustment := false, remove_excess := true }

/-- An engine state with anchor and previous anchor 100, both timers aged
out relative to `now = 100`, lock clear. -/
def st1 : EngineState :=
  { anchor_price := some 100, prev_anchor_price := some 100,
    price_adjustment := some 0, last_rebalance_ts := 0, last_refill_ts := 0,
    rebalance_lock := false }

/-- An environment at `now = 100` where every adapter call succeeds, both
books and open-order lists read empty, balances are 1000 USDT / 100 coins,
and the reference price is `price`. -/
def env1 (price : Option ℚ) : FollowEnv :=
  { now := 100, binance_price := price,
    open_orders := fun _ => some [], orderbook_dom := fun _ => some [],
    bait_attempts := fun _ => true, sweep_attempts := fun _ => true,
    anchor_attempts := fun _ => true, ladder_attempts := fun _ => true,
    buy_usdt := some 1000, sell_qty := some 100, adjustment_sample := 0 }

/-- `env1` at price 101 with every bait submission attempt failing. -/
def env_bait_fail : FollowEnv :=
  { env1 (some 101) with bait_attempts := fun _ => false }

/-- `env1` at price 100 with one resting bid open order at price 4. -/
def env_row : FollowEnv :=
  { env1 (some 100) with
    open_orders := fun s =>
      match s with
      | .bid => some [⟨Side.bid, 4, "o1"⟩]
      | .ask => some [] }

/-- `env1` at price 100 where locating the order-book container fails. -/
def env_dom_none : FollowEnv :=
  { env1 (some 100) with orderbook_dom := fun _ => none }

/-- A small dual-side configuration: 2 levels, 50% step, fixed budgets of
100 USDT per side, half on the anchor order, 100 USDT minimum order. -/
def dcfg1 : DualEngineConfig :=
  { levels := 2, rebalance_interval_sec := 10, refill_interval_sec := 10,
    step_percent := 50, anchor_budget_frac := 1 / 2, min_order_usdt := 100,
    distribution_mode := "EQUAL", bid_fixed_amount := 100,
    ask_fixed_amount := 100 }

/-- A dual-engine state with anchor and previous anchor 100. -/
def dst1 : DualState :=
  { anchor_price := some 100, prev_anchor_price := some 100,
    price_adjustment := some 0, last_rebalance_ts := 0, last_refill_ts := 0,
    rebalance_lock := false }

/-- A dual environment at `now = 100` where every call succeeds, books
read empty, and one open order rests on each side. -/
def denv1 (price : Option ℚ) : DualEnv :=
  { now := 100, binance_price := price,
    open_orders := fun s =>
      match s with
      | .bid => some [⟨Side.bid, 99, "b1"⟩]
      | .ask => some [⟨Side.ask, 101, "a1"⟩],
    orderbook_dom := fun _ => some [],
    bait_bid_attempts := fun _ => true, bait_ask_attempts := fun _ => true,
    sweep_bid_attempts := fun _ => true, sweep_ask_attempts := fun _ => true,
    anchor_bid_attempts := fun _ => true, anchor_ask_attempts := fun _ => true,
    ladder_attempts := fun _ _ => true, adjustment_sample := 0 }

/-- `denv1` at price 100 with one blocking ask row (price 99, qty 2) under
the target and no blocking bids. -/
def denv_block : DualEnv :=
  { denv1 (some 100) with
    orderbook_dom := fun s =>
      match s with
      | .ask => some [⟨"99", "2"⟩]
      | .bid => some [] }

/-- `denv1` at price 100 with every BAIT-BID submission attempt failing. -/
def denv_bait_fail : DualEnv :=
  { denv1 (some 100) with bait_bid_attempts := fun _ => false }

/-! ## Rounding lemmas -/

lemma round8_mono {x y : ℚ} (h : x ≤ y) : round8 x ≤ round8 y := by
  have h2 : ⌊x * 100000000 + 1 / 2⌋ ≤ ⌊y * 100000000 + 1 / 2⌋ :=
    Int.floor_mono (by nlinarith)
  have h3 : ((⌊x * 100000000 + 1 / 2⌋ : ℤ) : ℚ) ≤ ((⌊y * 100000000 + 1 / 2⌋ : ℤ) : ℚ) := by
    exact_mod_cast h2
  unfold round8
  linarith

lemma round8_add_le {x y : ℚ} (h : x + 1 / 100000000 ≤ y) :
    round8 x + 1 / 100000000 ≤ round8 y := by
  have h1 : x * 100000000 + 1 / 2 + 1 ≤ y * 100000000 + 1 / 2 := by nlinarith
  have h2 : ⌊x * 100000000 + 1 / 2⌋ + 1 ≤ ⌊y * 100000000 + 1 / 2⌋ := by
    have h3 : ⌊x * 100000000 + 1 / 2 + 1⌋ ≤ ⌊y * 100000000 + 1 / 2⌋ := Int.floor_mono h1
    rw [Int.floor_add_one] at h3
    exact h3
  have h4 : ((⌊x * 100000000 + 1 / 2⌋ : ℤ) : ℚ) + 1 ≤ ((⌊y * 100000000 + 1 / 2⌋ : ℤ) : ℚ) := by
    exact_mod_cast h2
  unfold round8
  linarith

lemma round8_lt_of_gap {x y : ℚ} (h : x + 1 / 100000000 ≤ y) : round8 x < round8 y := by
  have := round8_add_le h
  linarith

lemma round8_le_half_ulp (x : ℚ) : round8 x ≤ x + 1 / 200000000 := by
  have h := Int.floor_le (x * 100000000 + 1 / 2)
  unfold round8
  linarith

lemma half_ulp_lt_round8 (x : ℚ) : x - 1 / 200000000 < round8 x := by
  have h := Int.sub_one_lt_floor (x * 100000000 + 1 / 2)
  unfold round8
  linarith

lemma round8_abs_sub (x : ℚ) : |round8 x - x| ≤ 1 / 200000000 := by
  have h1 := round8_le_half_ulp x
  have h2 := half_ulp_lt_round8 x
  rw [abs_le]
  constructor <;> linarith

/-! ## Geometric-ladder gap lemmas -/

lemma geom_gap_bid {a s : ℚ} (ha : 0 < a) (hs : 0 < s) (hs1 : s < 1)
    {N i j : ℕ} (hij : i < j) (hjN : j < N)
    (hgap : 1 / 100000000 ≤ a * s * (1 - s) ^ N) :
    a * (1 - s) ^ (j + 1) + 1 / 100000000 ≤ a * (1 - s) ^ (i + 1) := by
  have h0 : (0 : ℚ) ≤ 1 - s := by linarith
  have h1 : 1 - s ≤ 1 := by linarith
  have hp1 : (1 - s) ^ (j + 1) ≤ (1 - s) ^ (i + 2) :=
    pow_le_pow_of_le_one h0 h1 (by omega)
  have hp2 : (1 - s) ^ N ≤ (1 - s) ^ (i + 1) :=
    pow_le_pow_of_le_one h0 h1 (by omega)
  have h5 : a * (1 - s) ^ (j + 1) ≤ a * (1 - s) ^ (i + 2) :=
    mul_le_mul_of_nonneg_left hp1 (le_of_lt ha)
  have h6 : a * (1 - s) ^ (i + 2) = a * (1 - s) ^ (i + 1) - a * s * (1 - s) ^ (i + 1) := by
    rw [pow_succ]
    ring
  have h7 : a * s * (1 - s) ^ N ≤ a * s * (1 - s) ^ (i + 1) :=
    mul_le_mul_of_nonneg_left hp2 (by positivity)
  linarith

lemma geom_gap_ask {a s : ℚ} (ha : 0 < a) (hs : 0 < s)
    {i j : ℕ} (hij : i < j) (hgap : 1 / 100000000 ≤ a * s) :
    a * (1 + s) ^ (i + 1) + 1 / 100000000 ≤ a * (1 + s) ^ (j + 1) := by
  have h1 : (1 : ℚ) ≤ 1 + s := by linarith
  have hp1 : (1 + s) ^ (i + 2) ≤ (1 + s) ^ (j + 1) :=
    pow_le_pow_right₀ h1 (by omega)
  have hp2 : (1 : ℚ) ≤ (1 + s) ^ (i + 1) := one_le_pow₀ h1
  have h5 : a * (1 + s) ^ (i + 2) ≤ a * (1 + s) ^ (j + 1) :=
    mul_le_mul_of_nonneg_left hp1 (le_of_lt ha)
  have h6 : a * (1 + s) ^ (i + 2) = a * (1 + s) ^ (i + 1) + a * s * (1 + s) ^ (i + 1) := by
    rw [pow_succ]
    ring
  have h7 : a * s ≤ a * s * (1 + s) ^ (i + 1) := by nlinarith
  linarith

/-! ## C5: ladder price geometry -/

/-- C5 (amended): for every anchor > 0, step fraction in (0,1) and level
count N ≥ 1, the planner produces exactly N prices
`round8 (anchor * (1 ∓ step)^k)` for k = 1..N.  The first bid price is
`round8 (anchor * (1 - step))` itself — within 5·10⁻⁹ of
`anchor * (1 - step)`, not strictly below it — and, provided the ladder's
smallest exact consecutive gap is at least the rounding unit
(`anchor·step·(1-step)^N ≥ 10⁻⁸`; for the ask side `anchor·step ≥ 10⁻⁸`),
the bid ladder is strictly decreasing with every price at most the first,
and the ask ladder strictly increasing with every price at least the
first, which is `round8 (anchor * (1 + step))`. -/
theorem ladder_price_geometry (a s : ℚ) (N : ℕ) (ha : 0 < a) (hs : 0 < s)
    (hs1 : s < 1) (hN : 0 < N)
    (hgapB : 1 / 100000000 ≤ a * s * (1 - s) ^ N)
    (hgapA : 1 / 100000000 ≤ a * s) :
    (calculate_orderbook_levels .bid a s N).length = N ∧
    (calculate_orderbook_levels .ask a s N).length = N ∧
    (calculate_orderbook_levels .bid a s N).Pairwise (· > ·) ∧
    (calculate_orderbook_levels .ask a s N).Pairwise (· < ·) ∧
    round8 (a * (1 - s)) ∈ calculate_orderbook_levels .bid a s N ∧
    round8 (a * (1 + s)) ∈ calculate_orderbook_levels .ask a s N ∧
    (∀ p ∈ calculate_orderbook_levels .bid a s N, p ≤ round8 (a * (1 - s))) ∧
    (∀ p ∈ calculate_orderbook_levels .ask a s N, round8 (a * (1 + s)) ≤ p) ∧
    |round8 (a * (1 - s)) - a * (1 - s)| ≤ 1 / 200000000 ∧
    |round8 (a * (1 + s)) - a * (1 + s)| ≤ 1 / 200000000 := by
  have h0 : (0 : ℚ) ≤ 1 - s := by linarith
  have h1 : 1 - s ≤ 1 := by linarith
  have h1' : (1 : ℚ) ≤ 1 + s := by linarith
  refine ⟨by simp [calculate_orderbook_levels], by simp [calculate_orderbook_levels],
    ?_, ?_, ?_, ?_, ?_, ?_, round8_abs_sub _, round8_abs_sub _⟩
  · rw [calculate_orderbook_levels, List.pairwise_iff_get]
    intro i j hij
    simp only [List.get_eq_getElem, List.getElem_map, List.getElem_range]
    have hj : (j : ℕ) < N := by simpa using j.isLt
    exact round8_lt_of_gap (geom_gap_bid ha hs hs1 hij hj hgapB)
  · rw [calculate_orderbook_levels, List.pairwise_iff_get]
    intro i j hij
    simp only [List.get_eq_getElem, List.getElem_map, List.getElem_range]
    exact round8_lt_of_gap (geom_gap_ask ha hs hij hgapA)
  · simp only [calculate_orderbook_levels, List.mem_map, List.mem_range]
    exact ⟨0, hN, by rw [zero_add, pow_one]⟩
  · simp only [calculate_orderbook_levels, List.mem_map, List.mem_range]
    exact ⟨0, hN, by rw [zero_add, pow_one]⟩
  · intro p hp
    simp only [calculate_orderbook_levels, List.mem_map, List.mem_range] at hp
    obtain ⟨k, _, rfl⟩ := hp
    apply round8_mono
    have hpow : (1 - s) ^ (k + 1) ≤ (1 - s) ^ 1 :=
      pow_le_pow_of_le_one h0 h1 (by omega)
    rw [pow_one] at hpow
    exact mul_le_mul_of_nonneg_left hpow (le_of_lt ha)
  · intro p hp
    simp only [calculate_orderbook_levels, List.mem_map, List.mem_range] at hp
    obtain ⟨k, _, rfl⟩ := hp
    apply round8_mono
    have hpow : (1 + s) ^ 1 ≤ (1 + s) ^ (k + 1) :=
      pow_le_pow_right₀ h1' (by omega)
    rw [pow_one] at hpow
    exact mul_le_mul_of_nonneg_left hpow (le_of_lt ha)

/-- C5 counterexample: at the spec's own example (anchor 100, 3 levels,
1% step) the planner yields exactly [99.0, 98.01, 97.0299], whose first
price equals `anchor * (1 - step) = 99` — so the claimed strict bound
"every price < anchor*(1-step)" is false. -/
theorem ladder_first_level_not_strictly_below :
    calculate_orderbook_levels .bid 100 (step_frac 1) 3 =
      [99, 9801 / 100, 970299 / 10000] ∧
    ¬ (∀ p ∈ calculate_orderbook_levels .bid 100 (step_frac 1) 3,
        p < 100 * (1 - step_frac 1)) := by
  have hval : calculate_orderbook_levels .bid 100 (step_frac 1) 3 =
      [99, 9801 / 100, 970299 / 10000] := by
    norm_num [calculate_orderbook_levels, round8, step_frac, List.range_succ]
  refine ⟨hval, fun h => ?_⟩
  have h99 := h 99 (by rw [hval]; simp)
  norm_num [step_frac] at h99

/-- C5 witness: the amended geometry theorem applied at the spec's example
(anchor 100, 1% step, 3 levels). -/
theorem ladder_price_geometry_witness :
    ((0 : ℚ) < 100 ∧ (0 : ℚ) < step_frac 1 ∧ step_frac 1 < 1 ∧ 0 < 3 ∧
      (1 : ℚ) / 100000000 ≤ 100 * step_frac 1 * (1 - step_frac 1) ^ 3 ∧
      (1 : ℚ) / 100000000 ≤ 100 * step_frac 1) ∧
    ((calculate_orderbook_levels .bid 100 (step_frac 1) 3).length = 3 ∧
      (calculate_orderbook_levels .ask 100 (step_frac 1) 3).length = 3 ∧
      (calculate_orderbook_levels .bid 100 (step_frac 1) 3).Pairwise (· > ·) ∧
      (calculate_orderbook_levels .ask 100 (step_frac 1) 3).Pairwise (· < ·) ∧
      round8 (100 * (1 - step_frac 1)) ∈
        calculate_orderbook_levels .bid 100 (step_frac 1) 3 ∧
      round8 (100 * (1 + step_frac 1)) ∈
        calculate_orderbook_levels .ask 100 (step_frac 1) 3 ∧
      (∀ p ∈ calculate_orderbook_levels .bid 100 (step_frac 1) 3,
          p ≤ round8 (100 * (1 - step_frac 1))) ∧
      (∀ p ∈ calculate_orderbook_levels .ask 100 (step_frac 1) 3,
          round8 (100 * (1 + step_frac 1)) ≤ p) ∧
      |round8 (100 * (1 - step_frac 1)) - 100 * (1 - step_frac 1)| ≤ 1 / 200000000 ∧
      |round8 (100 * (1 + step_frac 1)) - 100 * (1 + step_frac 1)| ≤ 1 / 200000000) :=
  ⟨⟨by norm_num, by norm_num [step_frac], by norm_num [step_frac], by norm_num,
      by norm_num [step_frac], by norm_num [step_frac]⟩,
    ladder_price_geometry 100 (step_frac 1) 3 (by norm_num)
      (by norm_num [step_frac]) (by norm_num [step_frac]) (by norm_num)
      (by norm_num [step_frac]) (by norm_num [step_frac])⟩

/-! ## Minimum/maximum bridging lemmas -/

lemma foldl_min_le_self (as : List ℚ) (a : ℚ) : as.foldl min a ≤ a := by
  induction as generalizing a with
  | nil => simp
  | cons x xs ih => exact le_trans (ih (min a x)) (min_le_left a x)

lemma foldl_min_le_mem (as : List ℚ) (a b : ℚ) (hb : b ∈ as) :
    as.foldl min a ≤ b := by
  induction as generalizing a with
  | nil => cases hb
  | cons x xs ih =>
    rcases List.mem_cons.mp hb with rfl | hmem
    · exact le_trans (foldl_min_le_self xs (min a b)) (min_le_right a b)
    · exact ih (min a x) hmem

lemma min?_le_of_mem {l : List ℚ} {m b : ℚ} (h : l.min? = some m)
    (hb : b ∈ l) : m ≤ b := by
  cases l with
  | nil => cases hb
  | cons a as =>
    simp only [List.min?, Option.some.injEq] at h
    subst h
    rcases List.mem_cons.mp hb with rfl | hmem
    · exact foldl_min_le_self as b
    · exact foldl_min_le_mem as a b hmem

lemma self_le_foldl_max (as : List ℚ) (a : ℚ) : a ≤ as.foldl max a := by
  induction as generalizing a with
  | nil => simp
  | cons x xs ih => exact le_trans (le_max_left a x) (ih (max a x))

lemma mem_le_foldl_max (as : List ℚ) (a b : ℚ) (hb : b ∈ as) :
    b ≤ as.foldl max a := by
  induction as generalizing a with
  | nil => cases hb
  | cons x xs ih =>
    rcases List.mem_cons.mp hb with rfl | hmem
    · exact le_trans (le_max_right a b) (self_le_foldl_max xs (max a b))
    · exact ih (max a x) hmem

lemma le_max?_of_mem {l : List ℚ} {m b : ℚ} (h : l.max? = some m)
    (hb : b ∈ l) : b ≤ m := by
  cases l with
  | nil => cases hb
  | cons a as =>
    simp only [List.max?, Option.some.injEq] at h
    subst h
    rcases List.mem_cons.mp hb with rfl | hmem
    · exact self_le_foldl_max as b
    · exact mem_le_foldl_max as a b hmem

/-! ## C7: refill non-overlap -/

/-- C7 (amended): for every refill pass on a non-empty book with deficit
d ≥ 1, the d new levels equal `round8 (outer * (1-step)^i)` (bid, outer
the lowest resting price) or `round8 (outer * (1+step)^i)` (ask, outer the
highest) for i = 1..d; provided the step at the outermost price exceeds
the rounding granularity (bid: `outer·step·(1-step)^d ≥ 10⁻⁸`; ask:
`outer·step ≥ 10⁻⁸`), every new bid level is strictly below the lowest
resting price and every new ask level strictly above the highest, so no
new level equals any resting order's price. -/
theorem refill_levels_never_overlap (s : ℚ) (rows : List OrderRow) (d : ℕ)
    (outerB outerA : ℚ) (hs : 0 < s) (hs1 : s < 1) (hd : 0 < d)
    (hB : outer_price .bid rows = some outerB)
    (hA : outer_price .ask rows = some outerA)
    (hgapB : 1 / 100000000 ≤ outerB * s * (1 - s) ^ d)
    (hgapA : 1 / 100000000 ≤ outerA * s) :
    refill_new_prices .bid s rows d =
      some ((List.range d).map (fun i => round8 (outerB * (1 - s) ^ (i + 1)))) ∧
    refill_new_prices .ask s rows d =
      some ((List.range d).map (fun i => round8 (outerA * (1 + s) ^ (i + 1)))) ∧
    (∀ p ∈ (List.range d).map (fun i => round8 (outerB * (1 - s) ^ (i + 1))),
        p < outerB) ∧
    (∀ p ∈ (List.range d).map (fun i => round8 (outerA * (1 + s) ^ (i + 1))),
        outerA < p) ∧
    (∀ p ∈ (List.range d).map (fun i => round8 (outerB * (1 - s) ^ (i + 1))),
        ∀ r ∈ rows, p ≠ r.price) ∧
    (∀ p ∈ (List.range d).map (fun i => round8 (outerA * (1 + s) ^ (i + 1))),
        ∀ r ∈ rows, p ≠ r.price) := by
  have h0 : (0 : ℚ) ≤ 1 - s := by linarith
  have h1 : 1 - s ≤ 1 := by linarith
  have hpowd : (0 : ℚ) < (1 - s) ^ d := pow_pos (by linarith) d
  have houterB : 0 < outerB := by nlinarith [mul_pos hs hpowd]
  have houterA : 0 < outerA := by nlinarith
  have hbelow : ∀ p ∈ (List.range d).map
      (fun i => round8 (outerB * (1 - s) ^ (i + 1))), p < outerB := by
    intro p hp
    simp only [List.mem_map, List.mem_range] at hp
    obtain ⟨k, _, rfl⟩ := hp
    have hx : outerB * (1 - s) ^ (k + 1) ≤ outerB * (1 - s) := by
      have hpow : (1 - s) ^ (k + 1) ≤ (1 - s) ^ 1 :=
        pow_le_pow_of_le_one h0 h1 (by omega)
      rw [pow_one] at hpow
      exact mul_le_mul_of_nonneg_left hpow (le_of_lt houterB)
    have hdrop : outerB * s * (1 - s) ^ d ≤ outerB * s := by
      have hpow1 : (1 - s) ^ d ≤ 1 := pow_le_one₀ h0 h1
      nlinarith
    have hup := round8_le_half_ulp (outerB * (1 - s) ^ (k + 1))
    nlinarith
  have habove : ∀ p ∈ (List.range d).map
      (fun i => round8 (outerA * (1 + s) ^ (i + 1))), outerA < p := by
    intro p hp
    simp only [List.mem_map, List.mem_range] at hp
    obtain ⟨k, _, rfl⟩ := hp
    have hx : outerA * (1 + s) ≤ outerA * (1 + s) ^ (k + 1) := by
      have hpow : (1 + s) ^ 1 ≤ (1 + s) ^ (k + 1) :=
        pow_le_pow_right₀ (by linarith) (by omega)
      rw [pow_one] at hpow
      exact mul_le_mul_of_nonneg_left hpow (le_of_lt houterA)
    have hdn := half_ulp_lt_round8 (outerA * (1 + s) ^ (k + 1))
    nlinarith
  refine ⟨?_, ?_, hbelow, habove, ?_, ?_⟩
  · simp [refill_new_prices, hB]
  · simp [refill_new_prices, hA]
  · intro p hp r hr
    have h2 : outerB ≤ r.price := by
      have : r.price ∈ rows.map OrderRow.price := List.mem_map_of_mem _ hr
      exact min?_le_of_mem hB this
    exact ne_of_lt (lt_of_lt_of_le (hbelow p hp) h2)
  · intro p hp r hr
    have h2 : r.price ≤ outerA := by
      have : r.price ∈ rows.map OrderRow.price := List.mem_map_of_mem _ hr
      exact le_max?_of_mem hA this
    exact ne_of_gt (lt_of_le_of_lt h2 (habove p hp))

/-- C7 counterexample: with a single resting bid at price 10⁻⁸ and a 1%
step, the one new refill level rounds back to 10⁻⁸ — exactly the resting
order's price — so "no computed new level equals any resting order's
price" fails without a granularity proviso. -/
theorem refill_level_collides_with_resting_order :
    refill_new_prices .bid (step_frac 1) [⟨Side.bid, 1 / 100000000, "o1"⟩] 1 =
      some [1 / 100000000] ∧
    ¬ (∀ p ∈ [(1 : ℚ) / 100000000],
        ∀ r ∈ [(⟨Side.bid, 1 / 100000000, "o1"⟩ : OrderRow)], p ≠ r.price) := by
  constructor
  · norm_num [refill_new_prices, outer_price, List.min?, round8, step_frac,
      List.range_succ]
  · intro h
    exact h (1 / 100000000) (by simp) ⟨Side.bid, 1 / 100000000, "o1"⟩ (by simp) rfl

/-- C7 witness: the amended refill non-overlap theorem applied to a book
with one resting order at price 100 and deficit 2 at a 1% step. -/
theorem refill_levels_never_overlap_witness :
    ((0 : ℚ) < step_frac 1 ∧ step_frac 1 < 1 ∧ 0 < 2 ∧
      outer_price .bid [⟨Side.bid, 100, "a"⟩] = some 100 ∧
      outer_price .ask [⟨Side.bid, 100, "a"⟩] = some 100 ∧
      (1 : ℚ) / 100000000 ≤ 100 * step_frac 1 * (1 - step_frac 1) ^ 2 ∧
      (1 : ℚ) / 100000000 ≤ 100 * step_frac 1) ∧
    ((∀ p ∈ (List.range 2).map
        (fun i => round8 (100 * (1 - step_frac 1) ^ (i + 1))),
          ∀ r ∈ [(⟨Side.bid, 100, "a"⟩ : OrderRow)], p ≠ r.price) ∧
      (∀ p ∈ (List.range 2).map
        (fun i => round8 (100 * (1 + step_frac 1) ^ (i + 1))),
          ∀ r ∈ [(⟨Side.bid, 100, "a"⟩ : OrderRow)], p ≠ r.price)) := by
  have h := refill_levels_never_overlap (step_frac 1) [⟨Side.bid, 100, "a"⟩] 2
    100 100 (by norm_num [step_frac]) (by norm_num [step_frac]) (by norm_num)
    (by norm_num [outer_price, List.min?]) (by norm_num [outer_price, List.max?])
    (by norm_num [step_frac]) (by norm_num [step_frac])
  exact ⟨⟨by norm_num [step_frac], by norm_num [step_frac], by norm_num,
    by norm_num [outer_price, List.min?], by norm_num [outer_price, List.max?],
    by norm_num [step_frac], by norm_num [step_frac]⟩, h.2.2.2.2⟩

/-! ## C1: single-side rebalance decision -/

/-- C1 (amended): at a rebalance-interval tick of a single-side engine
with a prior anchor set and the price fetch and open-order read
succeeding, a full rebalance is performed iff the new reference price
moved strictly in the staleness direction for the side (strictly above
the previous anchor for a bid engine, strictly below it for an ask
engine) — regardless of whether the book is empty; otherwise a
refill-only pass runs iff the book is empty or the price moved strictly
the opposite way, and nothing runs when the price is exactly unchanged
and the book non-empty.  In particular a bid engine with an empty book
performs a refill-only pass, not a full rebalance, unless the price
rose. -/
theorem single_side_rebalance_decision (cfg : EngineConfig) (side : Side)
    (step : ℚ) (flags : EngineFlags) (st : EngineState) (env : FollowEnv)
    (prev new_price : ℚ) (rows : List OrderRow)
    (hprice : env.binance_price = some new_price)
    (hprev : st.prev_anchor_price = some prev)
    (hrows : env.open_orders side = some rows) :
    (sync_with_binance cfg side step flags st env).2.2.2 =
      amended_single_side_decision side prev new_price rows ∧
    ((sync_with_binance cfg side step flags st env).2.2.2 = .fullRebalance →
      sync_with_binance cfg side step flags st env =
        ((full_rebalance cfg side step flags st env).1,
         (full_rebalance cfg side step flags st env).2.1,
         (full_rebalance cfg side step flags st env).2.2,
         SyncAction.fullRebalance)) ∧
    ((sync_with_binance cfg side step flags st env).2.2.2 = .refillOnly →
      sync_with_binance cfg side step flags st env =
        ((refill_orderbook_only cfg side step st env new_price).1,
         (refill_orderbook_only cfg side step st env new_price).2, none,
         SyncAction.refillOnly)) := by
  cases side with
  | bid =>
    simp only [sync_with_binance, amended_single_side_decision, hprice, hprev, hrows]
    by_cases h1 : 0 < new_price - prev
    · have hs1 : prev < new_price := by linarith
      simp [h1, hs1]
    · have hs1 : ¬ prev < new_price := fun h => h1 (by linarith)
      by_cases h2 : rows.length = 0 ∨ new_price - prev < 0
      · have hs2 : rows = [] ∨ new_price < prev := by
          rcases h2 with h | h
          · exact Or.inl (List.length_eq_zero.mp h)
          · exact Or.inr (by linarith)
        simp [h1, h2, hs1, hs2]
      · have hs2 : ¬(rows = [] ∨ new_price < prev) := by
          intro h
          apply h2
          rcases h with h | h
          · exact Or.inl (by simp [h])
          · exact Or.inr (by linarith)
        simp [h1, h2, hs1, hs2]
  | ask =>
    simp only [sync_with_binance, amended_single_side_decision, hprice, hprev, hrows]
    by_cases h1 : new_price - prev < 0
    · have hs1 : new_price < prev := by linarith
      simp [h1, hs1]
    · have hs1 : ¬ new_price < prev := fun h => h1 (by linarith)
      by_cases h2 : rows.length = 0 ∨ 0 < new_price - prev
      · have hs2 : rows = [] ∨ prev < new_price := by
          rcases h2 with h | h
          · exact Or.inl (List.length_eq_zero.mp h)
          · exact Or.inr (by linarith)
        simp [h1, h2, hs1, hs2]
      · have hs2 : ¬(rows = [] ∨ prev < new_price) := by
          intro h
          apply h2
          rcases h with h | h
          · exact Or.inl (by simp [h])
          · exact Or.inr (by linarith)
        simp [h1, h2, hs1, hs2]

/-- C1 counterexample: bid engine, previous anchor 100, reference price
fallen to 99, its book empty at the tick: the engine performs a
refill-only pass, not the full rebalance the claim requires for an empty
book. -/
theorem empty_book_price_down_refills_only :
    (sync_with_binance cfg1 .bid (step_frac cfg1.step_percent) flags1 st1
        (env1 (some 99))).2.2.2 = SyncAction.refillOnly ∧
    SyncAction.refillOnly ≠ SyncAction.fullRebalance := by
  constructor
  · norm_num [sync_with_binance, st1, env1, cfg1]
  · decide

/-- C1 witness: the amended decision theorem applied to a bid engine with
previous anchor 100, new price 99 and an empty book. -/
theorem single_side_rebalance_decision_witness :
    ((env1 (some 99)).binance_price = some 99 ∧
      st1.prev_anchor_price = some 100 ∧
      (env1 (some 99)).open_orders .bid = some []) ∧
    ((sync_with_binance cfg1 .bid (step_frac cfg1.step_percent) flags1 st1
        (env1 (some 99))).2.2.2 =
      amended_single_side_decision .bid 100 99 [] ∧
    ((sync_with_binance cfg1 .bid (step_frac cfg1.step_percent) flags1 st1
        (env1 (some 99))).2.2.2 = .fullRebalance →
      sync_with_binance cfg1 .bid (step_frac cfg1.step_percent) flags1 st1
          (env1 (some 99)) =
        ((full_rebalance cfg1 .bid (step_frac cfg1.step_percent) flags1 st1
            (env1 (some 99))).1,
         (full_rebalance cfg1 .bid (step_frac cfg1.step_percent) flags1 st1
            (env1 (some 99))).2.1,
         (full_rebalance cfg1 .bid (step_frac cfg1.step_percent) flags1 st1
            (env1 (some 99))).2.2,
         SyncAction.fullRebalance)) ∧
    ((sync_with_binance cfg1 .bid (step_frac cfg1.step_percent) flags1 st1
        (env1 (some 99))).2.2.2 = .refillOnly →
      sync_with_binance cfg1 .bid (step_frac cfg1.step_percent) flags1 st1
          (env1 (some 99)) =
        ((refill_orderbook_only cfg1 .bid (step_frac cfg1.step_percent) st1
            (env1 (some 99)) 99).1,
         (refill_orderbook_only cfg1 .bid (step_frac cfg1.step_percent) st1
            (env1 (some 99)) 99).2, none, SyncAction.refillOnly))) :=
  ⟨⟨by simp [env1], by simp [st1], by simp [env1]⟩,
    single_side_rebalance_decision cfg1 .bid (step_frac cfg1.step_percent)
      flags1 st1 (env1 (some 99)) 100 99 [] (by simp [env1]) (by simp [st1])
      (by simp [env1])⟩

/-! ## C2: dual-side rebalance decision -/

/-- C2: at a rebalance-interval tick of the dual-side engine with a prior
anchor set (and non-zero, as Python's division requires) and the price
fetch and both open-order reads succeeding, a full rebalance of both
sides is performed iff at least one side's open-order list is empty or
the absolute percentage change of the new price versus the previous
anchor exceeds 0.3%; otherwise a refill-only pass runs for both sides and
the anchor price and previous anchor price are updated to the new
reference price. -/
theorem dual_side_rebalance_decision (cfg : DualEngineConfig)
    (flags : EngineFlags) (st : DualState) (env : DualEnv)
    (prev new_price : ℚ) (bid_rows ask_rows : List OrderRow)
    (hprice : env.binance_price = some new_price)
    (hprev : st.prev_anchor_price = some prev) (hprev0 : prev ≠ 0)
    (hbid : env.open_orders .bid = some bid_rows)
    (hask : env.open_orders .ask = some ask_rows) :
    (sync_with_binance_both_sides cfg flags st env).2.2.2 =
      claimed_dual_decision prev new_price bid_rows ask_rows ∧
    ((sync_with_binance_both_sides cfg flags st env).2.2.2 = .refillOnly →
      sync_with_binance_both_sides cfg flags st env =
        ((refill_orderbook_only_both_sides cfg st env new_price).1,
         (refill_orderbook_only_both_sides cfg st env new_price).2, none,
         SyncAction.refillOnly) ∧
      (sync_with_binance_both_sides cfg flags st env).1.anchor_price =
        some new_price ∧
      (sync_with_binance_both_sides cfg flags st env).1.prev_anchor_price =
        some new_price) ∧
    ((sync_with_binance_both_sides cfg flags st env).2.2.2 = .fullRebalance →
      sync_with_binance_both_sides cfg flags st env =
        ((full_rebalance_both_sides cfg flags st env).1,
         (full_rebalance_both_sides cfg flags st env).2.1,
         (full_rebalance_both_sides cfg flags st env).2.2,
         SyncAction.fullRebalance)) := by
  simp only [sync_with_binance_both_sides, claimed_dual_decision, hprice,
    hprev, hbid, hask]
  by_cases h1 : bid_rows = [] ∨ ask_rows = []
  · have hs1 : bid_rows = [] ∨ ask_rows = [] ∨
        3 / 10 < |(new_price - prev) / prev * 100| := by
      rcases h1 with h | h
      · exact Or.inl h
      · exact Or.inr (Or.inl h)
    simp [h1, hs1]
  · by_cases h2 : 3 / 10 < |(new_price - prev) / prev * 100|
    · have hs1 : bid_rows = [] ∨ ask_rows = [] ∨
          3 / 10 < |(new_price - prev) / prev * 100| := Or.inr (Or.inr h2)
      simp [h1, h2, hs1]
    · have hs1 : ¬(bid_rows = [] ∨ ask_rows = [] ∨
          3 / 10 < |(new_price - prev) / prev * 100|) := by
        intro h
        rcases h with h | h | h
        · exact h1 (Or.inl h)
        · exact h1 (Or.inr h)
        · exact h2 h
      simp [h1, h2, hs1, refill_orderbook_only_both_sides]

/-- C2 witness: the decision theorem applied at the claim's example —
previous anchor 100, new price 99.9 (a −0.1% move), one resting order on
each side — together with the explicit outcome: the decision is
refill-only. -/
theorem dual_side_rebalance_decision_witness :
    (((denv1 (some (999 / 10))).binance_price = some (999 / 10) ∧
      dst1.prev_anchor_price = some 100 ∧ (100 : ℚ) ≠ 0 ∧
      (denv1 (some (999 / 10))).open_orders .bid = some [⟨Side.bid, 99, "b1"⟩] ∧
      (denv1 (some (999 / 10))).open_orders .ask = some [⟨Side.ask, 101, "a1"⟩]) ∧
     claimed_dual_decision 100 (999 / 10) [⟨Side.bid, 99, "b1"⟩]
        [⟨Side.ask, 101, "a1"⟩] = SyncAction.refillOnly) ∧
    ((sync_with_binance_both_sides dcfg1 flags1 dst1 (denv1 (some (999 / 10)))).2.2.2 =
      claimed_dual_decision 100 (999 / 10) [⟨Side.bid, 99, "b1"⟩]
        [⟨Side.ask, 101, "a1"⟩] ∧
    ((sync_with_binance_both_sides dcfg1 flags1 dst1 (denv1 (some (999 / 10)))).2.2.2 =
        .refillOnly →
      sync_with_binance_both_sides dcfg1 flags1 dst1 (denv1 (some (999 / 10))) =
        ((refill_orderbook_only_both_sides dcfg1 dst1 (denv1 (some (999 / 10)))
            (999 / 10)).1,
         (refill_orderbook_only_both_sides dcfg1 dst1 (denv1 (some (999 / 10)))
            (999 / 10)).2, none, SyncAction.refillOnly) ∧
      (sync_with_binance_both_sides dcfg1 flags1 dst1
          (denv1 (some (999 / 10)))).1.anchor_price = some (999 / 10) ∧
      (sync_with_binance_both_sides dcfg1 flags1 dst1
          (denv1 (some (999 / 10)))).1.prev_anchor_price = some (999 / 10)) ∧
    ((sync_with_binance_both_sides dcfg1 flags1 dst1 (denv1 (some (999 / 10)))).2.2.2 =
        .fullRebalance →
      sync_with_binance_both_sides dcfg1 flags1 dst1 (denv1 (some (999 / 10))) =
        ((full_rebalance_both_sides dcfg1 flags1 dst1 (denv1 (some (999 / 10)))).1,
         (full_rebalance_both_sides dcfg1 flags1 dst1 (denv1 (some (999 / 10)))).2.1,
         (full_rebalance_both_sides dcfg1 flags1 dst1 (denv1 (some (999 / 10)))).2.2,
         SyncAction.fullRebalance))) := by
  have habs : |((999 : ℚ) / 10 - 100) / 100 * 100| = 1 / 10 := by
    rw [show ((999 : ℚ) / 10 - 100) / 100 * 100 = -(1 / 10) by norm_num]
    rw [abs_neg, abs_of_pos] <;> norm_num
  refine ⟨⟨⟨by simp [denv1], by simp [dst1], by norm_num, by simp [denv1],
      by simp [denv1]⟩, ?_⟩, ?_⟩
  · have hcond : ¬([(⟨Side.bid, 99, "b1"⟩ : OrderRow)] = [] ∨
        [(⟨Side.ask, 101, "a1"⟩ : OrderRow)] = [] ∨
        (3 : ℚ) / 10 < |((999 : ℚ) / 10 - 100) / 100 * 100|) := by
      intro h
      rcases h with h | h | h
      · exact List.cons_ne_nil _ _ h
      · exact List.cons_ne_nil _ _ h
      · rw [habs] at h
        norm_num at h
    simp only [claimed_dual_decision, if_neg hcond]
  · exact dual_side_rebalance_decision dcfg1 flags1 dst1 (denv1 (some (999 / 10)))
      100 (999 / 10) [⟨Side.bid, 99, "b1"⟩] [⟨Side.ask, 101, "a1"⟩]
      (by simp [denv1]) (by simp [dst1]) (by norm_num) (by simp [denv1])
      (by simp [denv1])

/-! ## C3: bait failure escalation -/

/-- C3 (amended): when the bait order still fails after its retry cap
during a full rebalance, the step is aborted before any sweep, anchor or
ladder order is submitted — but by raising a `RuntimeError` that no
caller catches: it propagates out of `full_rebalance` and the control
loop and terminates the engine run (the source logs "Program will stop"),
rather than being fatal to that step only.  The same holds for the dual
engine's first bait. -/
theorem bait_failure_aborts_engine_run
    (cfg : EngineConfig) (side : Side) (step : ℚ) (flags : EngineFlags)
    (st : EngineState) (envs : ℕ → FollowEnv) (n : ℕ) (p : ℚ)
    (rows : List OrderRow) (dcfg : DualEngineConfig) (dtarget : ℚ)
    (denv : DualEnv)
    (hbait : retry_order (envs 0).bait_attempts 3 = false)
    (hprice : (envs 0).binance_price = some p)
    (hprev : st.prev_anchor_price = none)
    (hrows : (envs 0).open_orders side = some rows)
    (htimer : cfg.rebalance_interval_sec ≤ (envs 0).now - st.last_rebalance_ts)
    (hdbait : retry_order_dual denv.bait_bid_attempts 3 = false) :
    set_current_price_and_anchor cfg side p (envs 0) =
      ([], some "BAIT order failed") ∧
    (run_mm_iteration cfg side step flags st (envs 0)).2.2 =
      some "BAIT order failed" ∧
    (run_mm_iteration cfg side step flags st (envs 0)).2.1.submitted = [] ∧
    run_mm_loop cfg side step flags (n + 1) st envs =
      .error "BAIT order failed" ∧
    place_bait_orders dcfg dtarget denv = ([], some "BAIT-BID order failed") := by
  have h1 : set_current_price_and_anchor cfg side p (envs 0) =
      ([], some "BAIT order failed") := by
    simp [set_current_price_and_anchor, hbait]
  have h2 : (full_rebalance cfg side step flags st (envs 0)).2 =
      ([], some "BAIT order failed") := by
    simp [full_rebalance, hprice, hrows, h1]
  have h3 : (run_mm_iteration cfg side step flags st (envs 0)).2.2 =
        some "BAIT order failed" ∧
      (run_mm_iteration cfg side step flags st (envs 0)).2.1.submitted = [] := by
    constructor <;>
      simp [run_mm_iteration, htimer, sync_with_binance, hprice, hprev, h2]
  refine ⟨h1, h3.1, h3.2, ?_, by simp [place_bait_orders, hdbait]⟩
  simp [run_mm_loop, h3.1]

/-- C3 counterexample: with the bait order failing every attempt at a
tick that triggers a full rebalance, the control loop terminates with the
`RuntimeError` after its first iteration — it does not keep running and
retry on later ticks as claimed. -/
theorem bait_failure_terminates_loop :
    run_mm_loop cfg1 .bid (step_frac cfg1.step_percent) flags1 5 st1
        (fun _ => env_bait_fail) = .error "BAIT order failed" := by
  have hbait : retry_order env_bait_fail.bait_attempts 3 = false := by decide
  have hp : env_bait_fail.binance_price = some 101 := by
    simp [env_bait_fail, env1]
  have hro : env_bait_fail.open_orders Side.bid = some [] := by
    simp [env_bait_fail, env1]
  have hprev : st1.prev_anchor_price = some 100 := by simp [st1]
  have h1 : set_current_price_and_anchor cfg1 .bid 101 env_bait_fail =
      ([], some "BAIT order failed") := by
    simp [set_current_price_and_anchor, hbait]
  have h2 : (full_rebalance cfg1 .bid (step_frac cfg1.step_percent) flags1 st1
      env_bait_fail).2 = ([], some "BAIT order failed") := by
    simp [full_rebalance, hp, hro, h1]
  have h3 : (run_mm_iteration cfg1 .bid (step_frac cfg1.step_percent) flags1
      st1 env_bait_fail).2.2 = some "BAIT order failed" := by
    have ht : cfg1.rebalance_interval_sec ≤
        env_bait_fail.now - st1.last_rebalance_ts := by
      norm_num [cfg1, env_bait_fail, env1, st1]
    have hup : (0 : ℚ) < 101 - 100 := by norm_num
    simp [run_mm_iteration, ht, sync_with_binance, hp, hro, hprev, hup, h2]
  simp [run_mm_loop, h3]

/-- C3 witness: the abort theorem applied to a concrete engine whose bait
submissions always fail, five loop iterations of fuel remaining. -/
theorem bait_failure_aborts_engine_run_witness :
    (retry_order env_bait_fail.bait_attempts 3 = false ∧
      env_bait_fail.binance_price = some 101 ∧
      initial_state.prev_anchor_price = none ∧
      env_bait_fail.open_orders .bid = some [] ∧
      cfg1.rebalance_interval_sec ≤
        env_bait_fail.now - initial_state.last_rebalance_ts ∧
      retry_order_dual denv_bait_fail.bait_bid_attempts 3 = false) ∧
    (set_current_price_and_anchor cfg1 .bid 101 env_bait_fail =
      ([], some "BAIT order failed") ∧
    (run_mm_iteration cfg1 .bid (step_frac cfg1.step_percent) flags1
        initial_state env_bait_fail).2.2 = some "BAIT order failed" ∧
    (run_mm_iteration cfg1 .bid (step_frac cfg1.step_percent) flags1
        initial_state env_bait_fail).2.1.submitted = [] ∧
    run_mm_loop cfg1 .bid (step_frac cfg1.step_percent) flags1 (4 + 1)
        initial_state (fun _ => env_bait_fail) = .error "BAIT order failed" ∧
    place_bait_orders dcfg1 100 denv_bait_fail =
      ([], some "BAIT-BID order failed")) :=
  ⟨⟨by decide, by simp [env_bait_fail, env1], by simp [initial_state],
    by simp [env_bait_fail, env1], by norm_num [env_bait_fail, env1, cfg1,
      initial_state], by decide⟩,
    bait_failure_aborts_engine_run cfg1 .bid (step_frac cfg1.step_percent)
      flags1 initial_state (fun _ => env_bait_fail) 4 101 [] dcfg1 100
      denv_bait_fail (by decide) (by simp [env_bait_fail, env1])
      (by simp [initial_state]) (by simp [env_bait_fail, env1])
      (by norm_num [env_bait_fail, env1, cfg1, initial_state]) (by decide)⟩

/-! ## C4: sweep sizing and balance gate -/

/-- C4 (amended): in the single-side engine the claim holds: with the bait
placed, the required sweep amount is the bait quantity plus the sum of the
blocking quantities; it is checked against the side's budget-scaled
balance before sweeping, an insufficient balance aborts with only the bait
resting (not fatal, no sweep or anchor submitted), and otherwise a single
sweep order of exactly the aggregate quantity is submitted on the
engine's own side at the target price.  In the dual-side engine, however,
each side's sweep is sized to the sum of the blocking quantities alone
(bait excluded), no balance check is performed, and no sweep order is
submitted when there are no blocking orders. -/
theorem sweep_sizing_and_balance_gate (cfg : EngineConfig) (side : Side)
    (anchor : ℚ) (env : FollowEnv) (denv : DualEnv) (target2 : ℚ)
    (target bait_qty required : ℚ) (opp my : Side) (is_bid : Bool)
    (blocking ask_blocking : List OrderbookLevel)
    (hbait : retry_order env.bait_attempts 3 = true)
    (htarget : target = round8 anchor)
    (hqty : bait_qty = round8 (cfg.min_order_usdt / target))
    (hisbid : is_bid = decide (side = Side.bid))
    (hopp : opp = if is_bid then Side.ask else Side.bid)
    (hmy : my = if is_bid then Side.bid else Side.ask)
    (hblock : blocking = get_blocking_orders (env.orderbook_dom opp) target is_bid)
    (hreq : required = bait_qty + (blocking.map OrderbookLevel.qty).sum)
    (haskb : ask_blocking =
      get_blocking_orders_dual (denv.orderbook_dom .ask) target2 true) :
    (check_balance_available cfg env required target is_bid = false →
      set_current_price_and_anchor cfg side anchor env =
        ([⟨opp, target, bait_qty⟩], none)) ∧
    (check_balance_available cfg env required target is_bid = true →
     retry_order env.sweep_attempts 3 = true →
      set_current_price_and_anchor cfg side anchor env =
        ([⟨opp, target, bait_qty⟩, ⟨my, target, required⟩] ++
          place_anchor_order cfg env my target is_bid, none)) ∧
    (ask_blocking = [] →
      (sweep_blocking_orders target2 denv).filter
        (fun o => decide (o.side = Side.bid)) = []) ∧
    (ask_blocking ≠ [] → retry_order_dual denv.sweep_bid_attempts 3 = true →
      (sweep_blocking_orders target2 denv).filter
        (fun o => decide (o.side = Side.bid)) =
        [⟨Side.bid, target2, (ask_blocking.map OrderbookLevel.qty).sum⟩]) := by
  subst htarget hqty hisbid hopp hmy hblock hreq haskb
  have hpart2 : (if (get_blocking_orders_dual (denv.orderbook_dom .bid)
        target2 false).isEmpty then ([] : List PlacedOrder)
      else
        if retry_order_dual denv.sweep_ask_attempts 3 then
          [⟨.ask, target2, ((get_blocking_orders_dual (denv.orderbook_dom .bid)
            target2 false).map OrderbookLevel.qty).sum⟩]
        else []).filter (fun o => decide (o.side = Side.bid)) = [] := by
    split_ifs <;> simp
  refine ⟨?_, ?_, ?_, ?_⟩
  · intro hbal
    simp only [decide_eq_true_eq] at hbal
    simp [set_current_price_and_anchor, hbait, hbal]
  · intro hbal hsweep
    simp only [decide_eq_true_eq] at hbal
    simp [set_current_price_and_anchor, hbait, hbal, hsweep]
  · intro hempty
    simp only [sweep_blocking_orders, hempty, List.isEmpty_nil, if_true,
      List.nil_append]
    exact hpart2
  · intro hne hretry
    have hie : (get_blocking_orders_dual (denv.orderbook_dom .ask) target2
        true).isEmpty = false := by
      cases h : (get_blocking_orders_dual (denv.orderbook_dom .ask) target2
          true).isEmpty
      · rfl
      · exact absurd (List.isEmpty_iff.mp h) hne
    simp only [sweep_blocking_orders, hie, Bool.false_eq_true, if_false,
      hretry, if_true, List.filter_append, hpart2, List.append_nil]
    simp

/-- C4 counterexample: in the dual engine, with one blocking ask of
quantity 2 under the target and every submission succeeding, the sweep
submitted has quantity 2 — not the claimed bait quantity (1) plus
blocking (2) = 3 — and it is submitted without any balance check. -/
theorem dual_sweep_is_sized_without_bait :
    sweep_blocking_orders 100 denv_block = [⟨Side.bid, 100, 2⟩] ∧
    round8 (dcfg1.min_order_usdt / 100) +
      ((get_blocking_orders_dual (denv_block.orderbook_dom .ask) 100 true).map
        OrderbookLevel.qty).sum = 3 ∧
    (2 : ℚ) ≠ 3 := by
  have hask : get_blocking_orders_dual (denv_block.orderbook_dom .ask) 100 true =
      [⟨99, 2⟩] := rfl
  have hbid : get_blocking_orders_dual (denv_block.orderbook_dom .bid) 100 false =
      [] := rfl
  have hretry : retry_order_dual denv_block.sweep_bid_attempts 3 = true := by
    decide
  refine ⟨?_, ?_, by norm_num⟩
  · simp [sweep_blocking_orders, hask, hbid, hretry]
  · rw [hask]
    norm_num [round8, dcfg1]

/-- C4 witness: the sizing theorem applied at a concrete single-side bid
setup (anchor 100, no blocking orders, ample balance) and the concrete
dual-side environment with one blocking ask of quantity 2. -/
theorem sweep_sizing_and_balance_gate_witness :
    (retry_order (env1 (some 100)).bait_attempts 3 = true ∧
      (100 : ℚ) = round8 100 ∧
      (1 / 10 : ℚ) = round8 (cfg1.min_order_usdt / 100) ∧
      true = decide (Side.bid = Side.bid) ∧
      Side.ask = (if true then Side.ask else Side.bid) ∧
      Side.bid = (if true then Side.bid else Side.ask) ∧
      ([] : List OrderbookLevel) =
        get_blocking_orders ((env1 (some 100)).orderbook_dom Side.ask) 100 true ∧
      (1 / 10 : ℚ) = 1 / 10 + (([] : List OrderbookLevel).map OrderbookLevel.qty).sum ∧
      [(⟨99, 2⟩ : OrderbookLevel)] =
        get_blocking_orders_dual (denv_block.orderbook_dom .ask) 100 true) ∧
    ((check_balance_available cfg1 (env1 (some 100)) (1 / 10) 100 true = false →
      set_current_price_and_anchor cfg1 Side.bid 100 (env1 (some 100)) =
        ([⟨Side.ask, 100, 1 / 10⟩], none)) ∧
    (check_balance_available cfg1 (env1 (some 100)) (1 / 10) 100 true = true →
     retry_order (env1 (some 100)).sweep_attempts 3 = true →
      set_current_price_and_anchor cfg1 Side.bid 100 (env1 (some 100)) =
        ([⟨Side.ask, 100, 1 / 10⟩, ⟨Side.bid, 100, 1 / 10⟩] ++
          place_anchor_order cfg1 (env1 (some 100)) Side.bid 100 true, none)) ∧
    ([(⟨99, 2⟩ : OrderbookLevel)] = [] →
      (sweep_blocking_orders 100 denv_block).filter
        (fun o => decide (o.side = Side.bid)) = []) ∧
    ([(⟨99, 2⟩ : OrderbookLevel)] ≠ [] →
      retry_order_dual denv_block.sweep_bid_attempts 3 = true →
      (sweep_blocking_orders 100 denv_block).filter
        (fun o => decide (o.side = Side.bid)) =
        [⟨Side.bid, 100, ([(⟨99, 2⟩ : OrderbookLevel)].map OrderbookLevel.qty).sum⟩])) :=
  ⟨⟨by decide, by norm_num [round8], by norm_num [round8, cfg1], by decide,
      rfl, rfl, rfl, by simp, rfl⟩,
    sweep_sizing_and_balance_gate cfg1 Side.bid 100 (env1 (some 100))
      denv_block 100 100 (1 / 10) (1 / 10) Side.ask Side.bid true []
      [⟨99, 2⟩] (by decide) (by norm_num [round8])
      (by norm_num [round8, cfg1]) (by decide) rfl rfl rfl (by simp) rfl⟩

/-! ## C6: refill budget cap -/

/-- C6 (code bug): the single-side engine's budget cap is implemented in
`_calculate_remaining_budget` exactly as claimed, but its subtraction loop
reads `row.qty` on `vic_orders.OrderRow`, which has no `qty` attribute: on
every refill of a non-empty book in fixed-amount mode the first loop
iteration raises `AttributeError` and the refill pass dies instead of
capping the budget.  The dual engine never subtracts at all: its refill
hands the full configured ladder budget to the missing levels, so one
refilled level (notional 50) exceeds the ladder budget minus the notional
already resting (50 − 25 = 25). -/
theorem refill_budget_cap_is_broken :
    calculate_remaining_budget cfg_fixed .bid [⟨Side.bid, 4, "o1"⟩] =
      .error "AttributeError: OrderRow object has no attribute qty" ∧
    (refill_ladder_to_target cfg_fixed .bid (step_frac cfg_fixed.step_percent)
        flags1 100 env_row).2 =
      some "AttributeError: OrderRow object has no attribute qty" ∧
    refill_ladder_side dcfg1 100 .bid [⟨Side.bid, 4, "x"⟩] (denv1 (some 100)) =
      [⟨Side.bid, 2, 25⟩] ∧
    ((([(⟨Side.bid, 2, 25⟩ : PlacedOrder)]).map
        (fun o => o.price * o.qty)).sum = 50 ∧
      dcfg1.bid_fixed_amount * (1 - dcfg1.anchor_budget_frac) - 4 * (25 / 4) <
        50) := by
  have hp : refill_new_prices .bid (step_frac 50) [⟨Side.bid, 4, "x"⟩] 1 =
      some [2] := by
    norm_num [refill_new_prices, outer_price, List.min?, step_frac, round8,
      List.range_succ]
  refine ⟨rfl, rfl, ?_, by norm_num [dcfg1], ?_⟩
  · simp only [refill_ladder_side, dcfg1, denv1, step_frac]
    norm_num [refill_new_prices, outer_price, List.min?, round8,
      List.range_succ, place_ladder_orders_side, get_weights, weights_equal,
      List.filterMap_cons]
  · norm_num [dcfg1]

/-! ## C8: startup cleanup -/

/-- C8: before the first rebalance the engine runs up to 3 full cancel-all
cleanup attempts (with a short pause between); it proceeds to trading only
if an attempt reports nothing to cancel (`total = 0`) or all orders
cancelled (`success = total`); when every attempt leaves orders, the
startup raises the fatal consistency error and the engine run terminates
without placing any order. -/
theorem startup_cleanup_is_fatal_when_orders_remain
    (attempt_results : ℕ → ℕ × ℕ) (cfg : EngineConfig) (side : Side)
    (step : ℚ) (flags : EngineFlags) (env : FollowEnv)
    (hfail : ∀ i < 3, (attempt_results i).2 ≠ 0 ∧
      (attempt_results i).1 ≠ (attempt_results i).2) :
    ensure_clean_start attempt_results =
      .error "Order cleanup failed after 3 attempts" ∧
    run_mm_startup cfg side step flags attempt_results env =
      ([], some "Order cleanup failed after 3 attempts") ∧
    (∀ res : ℕ → ℕ × ℕ, ensure_clean_start res = .ok () →
      ∃ i, i < 3 ∧ ((res i).2 = 0 ∨ (res i).1 = (res i).2)) := by
  have h0 := hfail 0 (by omega)
  have h1 := hfail 1 (by omega)
  have h2 := hfail 2 (by omega)
  have he : ensure_clean_start attempt_results =
      .error "Order cleanup failed after 3 attempts" := by
    simp [ensure_clean_start, ensure_clean_start_go, h0.1, h0.2, h1.1, h1.2,
      h2.1, h2.2]
  refine ⟨he, by simp [run_mm_startup, he], ?_⟩
  intro res hok
  by_cases c0 : (res 0).2 = 0 ∨ (res 0).1 = (res 0).2
  · exact ⟨0, by omega, c0⟩
  · by_cases c1 : (res 1).2 = 0 ∨ (res 1).1 = (res 1).2
    · exact ⟨1, by omega, c1⟩
    · by_cases c2 : (res 2).2 = 0 ∨ (res 2).1 = (res 2).2
      · exact ⟨2, by omega, c2⟩
      · exfalso
        push_neg at c0 c1 c2
        simp [ensure_clean_start, ensure_clean_start_go, c0.1, c0.2, c1.1,
          c1.2, c2.1, c2.2] at hok

/-- C8 witness: the cleanup theorem applied to attempts that each report 1
of 2 orders cancelled. -/
theorem startup_cleanup_is_fatal_witness :
    (∀ i < 3, ((fun (_ : ℕ) => ((1 : ℕ), (2 : ℕ))) i).2 ≠ 0 ∧
      ((fun (_ : ℕ) => ((1 : ℕ), (2 : ℕ))) i).1 ≠
        ((fun (_ : ℕ) => ((1 : ℕ), (2 : ℕ))) i).2) ∧
    (ensure_clean_start (fun _ => (1, 2)) =
      .error "Order cleanup failed after 3 attempts" ∧
    run_mm_startup cfg1 .bid (step_frac cfg1.step_percent) flags1
        (fun _ => (1, 2)) (env1 (some 100)) =
      ([], some "Order cleanup failed after 3 attempts") ∧
    (∀ res : ℕ → ℕ × ℕ, ensure_clean_start res = .ok () →
      ∃ i, i < 3 ∧ ((res i).2 = 0 ∨ (res i).1 = (res i).2))) :=
  ⟨fun _ _ => ⟨by norm_num, by norm_num⟩,
    startup_cleanup_is_fatal_when_orders_remain (fun _ => (1, 2)) cfg1 .bid
      (step_frac cfg1.step_percent) flags1 (env1 (some 100))
      (fun _ _ => ⟨by norm_num, by norm_num⟩)⟩

/-! ## C10: silent order-book read failure -/

/-- C10: `read_orderbook` returns the empty list whenever locating the
order-book container fails or times out, and silently skips any row whose
price or quantity text fails to parse; consequently, when the order-book
read fails during the blocking-order scan of a full rebalance (and the
remaining submissions succeed and the balance suffices), the blocking set
is treated as empty and the sweep is submitted sized to the bait quantity
alone, with no error raised. -/
theorem orderbook_read_failure_is_silent (rows : List RawRow) (row : RawRow)
    (cfg : EngineConfig) (side : Side) (anchor : ℚ) (env : FollowEnv)
    (target bait_qty : ℚ) (opp my : Side) (is_bid : Bool)
    (hbad : parse_number row.priceText = none ∨ parse_number row.qtyText = none)
    (htarget : target = round8 anchor)
    (hqty : bait_qty = round8 (cfg.min_order_usdt / target))
    (hisbid : is_bid = decide (side = Side.bid))
    (hopp : opp = if is_bid then Side.ask else Side.bid)
    (hmy : my = if is_bid then Side.bid else Side.ask)
    (hdom : env.orderbook_dom opp = none)
    (hbait : retry_order env.bait_attempts 3 = true)
    (hbal : check_balance_available cfg env bait_qty target is_bid = true)
    (hsweep : retry_order env.sweep_attempts 3 = true) :
    read_orderbook none = [] ∧
    read_orderbook (some (row :: rows)) = read_orderbook (some rows) ∧
    get_blocking_orders none target is_bid = [] ∧
    (set_current_price_and_anchor cfg side anchor env).2 = none ∧
    (⟨my, target, bait_qty⟩ : PlacedOrder) ∈
      (set_current_price_and_anchor cfg side anchor env).1 := by
  subst htarget hqty hisbid hopp hmy
  simp only [decide_eq_true_eq] at hdom hbal
  have hrow : read_orderbook (some (row :: rows)) = read_orderbook (some rows) := by
    rcases hbad with h | h
    · simp [read_orderbook, List.filterMap_cons, h]
    · cases hp : parse_number row.priceText <;>
        simp [read_orderbook, List.filterMap_cons, h, hp]
  have hblock : get_blocking_orders none (round8 anchor)
      (decide (side = Side.bid)) = [] := by
    simp [get_blocking_orders, read_orderbook]
  have hmain : set_current_price_and_anchor cfg side anchor env =
      ([⟨if side = Side.bid then Side.ask else Side.bid, round8 anchor,
          round8 (cfg.min_order_usdt / round8 anchor)⟩,
        ⟨if side = Side.bid then Side.bid else Side.ask, round8 anchor,
          round8 (cfg.min_order_usdt / round8 anchor)⟩] ++
        place_anchor_order cfg env
          (if side = Side.bid then Side.bid else Side.ask) (round8 anchor)
          (decide (side = Side.bid)), none) := by
    simp [set_current_price_and_anchor, hbait, hdom, hbal, hsweep,
      get_blocking_orders, read_orderbook]
  refine ⟨rfl, hrow, hblock, ?_, ?_⟩
  · rw [hmain]
  · rw [hmain]
    simp

/-- C10 witness: the silent-failure theorem applied to a bid engine at
anchor 100 whose order-box lookup times out, with an unparseable sample
row and ample balance. -/
theorem orderbook_read_failure_is_silent_witness :
    ((parse_number "abc" = none ∨ parse_number "" = none) ∧
      (100 : ℚ) = round8 100 ∧
      (1 / 10 : ℚ) = round8 (cfg1.min_order_usdt / 100) ∧
      true = decide (Side.bid = Side.bid) ∧
      Side.ask = (if true then Side.ask else Side.bid) ∧
      Side.bid = (if true then Side.bid else Side.ask) ∧
      env_dom_none.orderbook_dom Side.ask = none ∧
      retry_order env_dom_none.bait_attempts 3 = true ∧
      check_balance_available cfg1 env_dom_none (1 / 10) 100 true = true ∧
      retry_order env_dom_none.sweep_attempts 3 = true) ∧
    (read_orderbook none = [] ∧
    read_orderbook (some (⟨"abc", "1"⟩ :: [])) = read_orderbook (some []) ∧
    get_blocking_orders none 100 true = [] ∧
    (set_current_price_and_anchor cfg1 Side.bid 100 env_dom_none).2 = none ∧
    (⟨Side.bid, 100, 1 / 10⟩ : PlacedOrder) ∈
      (set_current_price_and_anchor cfg1 Side.bid 100 env_dom_none).1) :=
  ⟨⟨Or.inl rfl, by norm_num [round8], by norm_num [round8, cfg1], by decide,
      rfl, rfl, rfl, by decide,
      by norm_num [check_balance_available, cfg1, env_dom_none, env1],
      by decide⟩,
    orderbook_read_failure_is_silent [] ⟨"abc", "1"⟩ cfg1 Side.bid 100
      env_dom_none 100 (1 / 10) Side.ask Side.bid true (Or.inl rfl)
      (by norm_num [round8]) (by norm_num [round8, cfg1]) (by decide) rfl rfl
      rfl (by decide)
      (by norm_num [check_balance_available, cfg1, env_dom_none, env1])
      (by decide)⟩

/-! ## Control-loop state-field lemmas -/

lemma full_rebalance_state_fields (cfg : EngineConfig) (side : Side)
    (step : ℚ) (flags : EngineFlags) (st : EngineState) (env : FollowEnv) :
    (full_rebalance cfg side step flags st env).1.rebalance_lock = false ∧
    (full_rebalance cfg side step flags st env).1.last_refill_ts =
      st.last_refill_ts := by
  unfold full_rebalance
  split
  · exact ⟨rfl, rfl⟩
  · dsimp only
    split
    · exact ⟨rfl, rfl⟩
    · split
      · exact ⟨rfl, rfl⟩
      · split
        · exact ⟨rfl, rfl⟩
        · exact ⟨rfl, rfl⟩

lemma refill_orderbook_only_state_fields (cfg : EngineConfig) (side : Side)
    (step : ℚ) (st : EngineState) (env : FollowEnv) (p : ℚ) :
    (refill_orderbook_only cfg side step st env p).1.rebalance_lock =
      st.rebalance_lock ∧
    (refill_orderbook_only cfg side step st env p).1.last_refill_ts =
      st.last_refill_ts := by
  unfold refill_orderbook_only
  dsimp only
  split <;> exact ⟨rfl, rfl⟩

lemma sync_with_binance_state_fields (cfg : EngineConfig) (side : Side)
    (step : ℚ) (flags : EngineFlags) (st : EngineState) (env : FollowEnv)
    (hlock : st.rebalance_lock = false) :
    (sync_with_binance cfg side step flags st env).1.rebalance_lock = false ∧
    (sync_with_binance cfg side step flags st env).1.last_refill_ts =
      st.last_refill_ts := by
  unfold sync_with_binance
  split
  · exact ⟨hlock, rfl⟩
  · split
    · exact full_rebalance_state_fields cfg side step flags st env
    · dsimp only
      split
      · exact ⟨hlock, rfl⟩
      · split
        · split
          · exact full_rebalance_state_fields cfg _ step flags st env
          · split
            · rename_i x3 newp heq2 x2 prevp heq1 x1 rows0 sx heq hc1 hc2
              exact ⟨((refill_orderbook_only_state_fields cfg Side.bid step st
                env newp).1).trans hlock,
                (refill_orderbook_only_state_fields cfg Side.bid step st env
                  newp).2⟩
            · exact ⟨hlock, rfl⟩
        · split
          · exact full_rebalance_state_fields cfg _ step flags st env
          · split
            · rename_i x3 newp heq2 x2 prevp heq1 x1 rows0 sx heq hc1 hc2
              exact ⟨((refill_orderbook_only_state_fields cfg Side.ask step st
                env newp).1).trans hlock,
                (refill_orderbook_only_state_fields cfg Side.ask step st env
                  newp).2⟩
            · exact ⟨hlock, rfl⟩

/-! ## C9: tick exclusivity -/

/-- C9 (amended): the two timer checks run sequentially within one loop
iteration.  A full rebalance triggered by the first check completes
synchronously and clears the `rebalancing` flag in its `finally` before
the refill check is evaluated, so the flag is false at the refill check
and never blocks the refill path; the sync phase also never touches the
refill timer.  Consequently, whenever the rebalance-phase completed
without a fatal error and the refill timer has matured, the refill path
runs in the same iteration as whatever the sync phase did — the claimed
at-most-one-path exclusion does not hold. -/
theorem rebalancing_flag_never_blocks_refill (cfg : EngineConfig)
    (side : Side) (step : ℚ) (flags : EngineFlags) (st : EngineState)
    (env : FollowEnv) (hlock : st.rebalance_lock = false)
    (htimer : cfg.refill_interval_sec ≤ env.now - st.last_refill_ts)
    (hreb : cfg.rebalance_interval_sec ≤ env.now - st.last_rebalance_ts)
    (hnofatal : (sync_with_binance cfg side step flags st env).2.2.1 = none) :
    (run_mm_iteration cfg side step flags st env).2.1.lock_at_refill_check =
      some false ∧
    (run_mm_iteration cfg side step flags st env).2.1.refill_ran = true ∧
    (run_mm_iteration cfg side step flags st env).2.1.sync_action =
      some (sync_with_binance cfg side step flags st env).2.2.2 := by
  obtain ⟨hl, hr⟩ :=
    sync_with_binance_state_fields cfg side step flags st env hlock
  simp [run_mm_iteration, hreb, hnofatal, hl, hr, htimer]

/-- C9 counterexample: a bid engine at a tick where both timers matured
and the price rose runs the full-rebalance path and then also the refill
path in the same iteration, the `rebalancing` flag reading false at the
refill check. -/
theorem full_rebalance_and_refill_same_tick :
    (run_mm_iteration cfg1 .bid (step_frac cfg1.step_percent) flags1 st1
        (env1 (some 101))).2.1.sync_action = some SyncAction.fullRebalance ∧
    (run_mm_iteration cfg1 .bid (step_frac cfg1.step_percent) flags1 st1
        (env1 (some 101))).2.1.refill_ran = true ∧
    (run_mm_iteration cfg1 .bid (step_frac cfg1.step_percent) flags1 st1
        (env1 (some 101))).2.1.lock_at_refill_check = some false := by
  have hp : (env1 (some 101)).binance_price = some 101 := by simp [env1]
  have hro : ∀ s, (env1 (some 101)).open_orders s = some [] := by
    intro s
    simp [env1]
  have hprev : st1.prev_anchor_price = some 100 := by simp [st1]
  have hup : (0 : ℚ) < 101 - 100 := by norm_num
  have hbait : retry_order (env1 (some 101)).bait_attempts 3 = true := by decide
  have hsc : (set_current_price_and_anchor cfg1 .bid 101 (env1 (some 101))).2 =
      none := by
    simp only [set_current_price_and_anchor, hbait]
    split_ifs <;> simp_all
  have hrf : (refill_ladder_to_target cfg1 .bid (step_frac cfg1.step_percent)
      flags1 101 (env1 (some 101))).2 = none := by
    simp [refill_ladder_to_target, hro, cfg1]
  have hfr : (full_rebalance cfg1 .bid (step_frac cfg1.step_percent) flags1
      st1 (env1 (some 101))).2.2 = none := by
    simp [full_rebalance, hp, hro, hsc, hrf]
  have hsync : (sync_with_binance cfg1 .bid (step_frac cfg1.step_percent)
      flags1 st1 (env1 (some 101))).2.2.1 = none := by
    simp [sync_with_binance, hp, hprev, hro, hup, hfr]
  have hact : (sync_with_binance cfg1 .bid (step_frac cfg1.step_percent)
      flags1 st1 (env1 (some 101))).2.2.2 = SyncAction.fullRebalance := by
    simp [sync_with_binance, hp, hprev, hro, hup]
  have hlock : st1.rebalance_lock = false := by simp [st1]
  obtain ⟨hl, hr⟩ := sync_with_binance_state_fields cfg1 .bid
    (step_frac cfg1.step_percent) flags1 st1 (env1 (some 101)) hlock
  have hreb : cfg1.rebalance_interval_sec ≤
      (env1 (some 101)).now - st1.last_rebalance_ts := by
    norm_num [cfg1, env1, st1]
  have htimer : cfg1.refill_interval_sec ≤
      (env1 (some 101)).now - st1.last_refill_ts := by
    norm_num [cfg1, env1, st1]
  have hts : st1.last_refill_ts = 0 := by simp [st1]
  have htimer0 : cfg1.refill_interval_sec ≤ (env1 (some 101)).now := by
    norm_num [cfg1, env1]
  refine ⟨?_, ?_, ?_⟩ <;>
    simp [run_mm_iteration, hreb, hsync, hact, hl, hr, hts, htimer, htimer0]

/-- C9 witness: the amended theorem applied at the concrete
both-timers-matured tick with a rising price. -/
theorem rebalancing_flag_never_blocks_refill_witness :
    (st1.rebalance_lock = false ∧
      cfg1.refill_interval_sec ≤ (env1 (some 101)).now - st1.last_refill_ts ∧
      cfg1.rebalance_interval_sec ≤
        (env1 (some 101)).now - st1.last_rebalance_ts ∧
      (sync_with_binance cfg1 .bid (step_frac cfg1.step_percent) flags1 st1
        (env1 (some 101))).2.2.1 = none) ∧
    ((run_mm_iteration cfg1 .bid (step_frac cfg1.step_percent) flags1 st1
        (env1 (some 101))).2.1.lock_at_refill_check = some false ∧
    (run_mm_iteration cfg1 .bid (step_frac cfg1.step_percent) flags1 st1
        (env1 (some 101))).2.1.refill_ran = true ∧
    (run_mm_iteration cfg1 .bid (step_frac cfg1.step_percent) flags1 st1
        (env1 (some 101))).2.1.sync_action =
      some (sync_with_binance cfg1 .bid (step_frac cfg1.step_percent) flags1
        st1 (env1 (some 101))).2.2.2) := by
  have hp : (env1 (some 101)).binance_price = some 101 := by simp [env1]
  have hro : ∀ s, (env1 (some 101)).open_orders s = some [] := by
    intro s
    simp [env1]
  have hprev : st1.prev_anchor_price = some 100 := by simp [st1]
  have hup : (0 : ℚ) < 101 - 100 := by norm_num
  have hbait : retry_order (env1 (some 101)).bait_attempts 3 = true := by decide
  have hsc : (set_current_price_and_anchor cfg1 .bid 101 (env1 (some 101))).2 =
      none := by
    simp only [set_current_price_and_anchor, hbait]
    split_ifs <;> simp_all
  have hrf : (refill_ladder_to_target cfg1 .bid (step_frac cfg1.step_percent)
      flags1 101 (env1 (some 101))).2 = none := by
    simp [refill_ladder_to_target, hro, cfg1]
  have hfr : (full_rebalance cfg1 .bid (step_frac cfg1.step_percent) flags1
      st1 (env1 (some 101))).2.2 = none := by
    simp [full_rebalance, hp, hro, hsc, hrf]
  have hsync : (sync_with_binance cfg1 .bid (step_frac cfg1.step_percent)
      flags1 st1 (env1 (some 101))).2.2.1 = none := by
    simp [sync_with_binance, hp, hprev, hro, hup, hfr]
  exact ⟨⟨by simp [st1], by norm_num [cfg1, env1, st1],
      by norm_num [cfg1, env1, st1], hsync⟩,
    rebalancing_flag_never_blocks_refill cfg1 .bid (step_frac cfg1.step_percent)
      flags1 st1 (env1 (some 101)) (by simp [st1])
      (by norm_num [cfg1, env1, st1]) (by norm_num [cfg1, env1, st1]) hsync⟩

end MMBot
